import Mathlib

/-!
Verification development for the HubSpot deals ETL service
(`services/data_source.py` and `services/hubspot_api_service.py`).

The Python code is shallowly embedded:

* `transform_hubspot_deal` mirrors the record transformation of
  `data_source.py` (lines 11-79).  Fields whose computation can raise a
  Python exception are sequenced in an `Except String` monad in the
  evaluation order of the Python dict literal; fields wrapped in
  `try/except` in the source are total.  The synthetic `id` (uuid) and
  `_extracted_at` (wall clock) fields are nondeterministic I/O and are
  not modelled; no claim mentions them.
* the extraction engine `get_hubspot_deals` (lines 122-447) becomes the
  fuel-based state machine `runLoop`; the fuel is `1000 - page_count`,
  matching the `while page_count < 1000` guard, since every iteration
  that loops again increments `page_count` by exactly one.
* the caller-supplied callbacks become boolean streams indexed by the
  number of times the corresponding guard expression
  (`check_X_callback and check_X_callback(scan_id)`) has been evaluated,
  and a `cbRaises` stream telling whether the n-th invocation of
  `checkpoint_callback` raises.
* `_make_request` of `hubspot_api_service.py` (lines 76-122) becomes
  `makeRequest`, driven by a stream of per-attempt HTTP outcomes.

Cursors are opaque to the engine (it only stores and forwards them), so
the engine is parametric in the cursor type `σ`.
-/

namespace HubSpotETL

/-- Python truthiness of an optional string: `None` and `""` are falsy.
Models guards of the form `if properties.get(k):`. -/
def truthy : Option String → Option String
  | none => none
  | some s => if s = "" then none else some s

/-- `properties.get(k)` on the property map (modelled as an association list). -/
def getProp (props : List (String × String)) (k : String) : Option String :=
  (props.find? (fun kv => kv.1 = k)).map Prod.snd

/-- Value of a list of decimal digit characters. -/
def digitsVal (cs : List Char) : Nat :=
  cs.foldl (fun n c => n * 10 + (c.toNat - 48)) 0

/-- Model of Python `float(s)` on decimal strings: optional sign, digits,
optional single decimal point, at least one digit overall.  Returns `none`
exactly when Python raises `ValueError` (exotic accepted spellings such as
exponents or `inf` are outside the profile used by this service). -/
def parseFloat? (s : String) : Option ℚ :=
  let cs := s.toList
  let signed : ℚ × List Char :=
    match cs with
    | '-' :: rest => (-1, rest)
    | '+' :: rest => (1, rest)
    | _ => (1, cs)
  let intPart := signed.2.takeWhile Char.isDigit
  let rest := signed.2.dropWhile Char.isDigit
  match rest with
  | [] => if intPart.isEmpty then none else some (signed.1 * digitsVal intPart)
  | '.' :: fracPart =>
    if fracPart.all Char.isDigit && !(intPart.isEmpty && fracPart.isEmpty) then
      some (signed.1 * ((digitsVal intPart : ℚ) + (digitsVal fracPart : ℚ) / (10 ^ fracPart.length)))
    else none
  | _ => none

/-- Model of Python `int(s)`: optional sign then decimal digits only
(`int("1.5")` raises, hence `none` here). -/
def parseInt? (s : String) : Option Int :=
  let cs := s.toList
  let signed : Int × List Char :=
    match cs with
    | '-' :: rest => (-1, rest)
    | '+' :: rest => (1, rest)
    | _ => (1, cs)
  if signed.2.isEmpty || !signed.2.all Char.isDigit then none
  else some (signed.1 * digitsVal signed.2)

/-- Shape check modelling `datetime.fromisoformat`: `YYYY-MM-DD`,
optionally followed by a `T` or space and a time part.  Only the
raise/no-raise behaviour of date parsing is relevant to the claims; the
parsed value itself is kept as the (Z-normalised) source string. -/
def isIsoDate (s : String) : Bool :=
  match s.toList with
  | y1 :: y2 :: y3 :: y4 :: '-' :: m1 :: m2 :: '-' :: d1 :: d2 :: rest =>
    [y1, y2, y3, y4, m1, m2, d1, d2].all Char.isDigit &&
      (rest.isEmpty || rest.head? = some 'T' || rest.head? = some ' ')
  | _ => false

/-- The inner `parse_date` helper of `transform_hubspot_deal`: falsy input
gives `None`; otherwise `'Z'` is rewritten to `'+00:00'` and the result of
`fromisoformat` is returned, with any `ValueError`/`TypeError` degraded to
`None` by the surrounding `try/except`. -/
def parse_date (v : Option String) : Option String :=
  match truthy v with
  | none => none
  | some s =>
    let s := s.replace "Z" "+00:00"
    if isIsoDate s then some s else none

/-- `try: float(...) except (ValueError, TypeError): None` applied to a
property value guarded by `if properties.get(k):`. -/
def safeFloat (v : Option String) : Option ℚ :=
  (truthy v).bind parseFloat?

/-- A raw HubSpot deal as consumed by the transformation: remote id,
string-valued property map, archived flag. -/
structure RawDeal where
  id : Option String
  properties : List (String × String)
  archived : Bool := false
deriving Repr, DecidableEq

/-- The transformed row produced by `transform_hubspot_deal`.  Dates are
kept as their normalised source strings (see `parse_date`). -/
structure TransformedDeal where
  deal_id : Option String
  deal_name : Option String
  amount : Option ℚ
  deal_stage : Option String
  close_date : Option String
  pipeline : Option String
  deal_type : Option String
  hubspot_owner_id : Option String
  deal_stage_probability : Option ℚ
  description : Option String
  analytics_source : Option String
  num_associated_contacts : Int
  priority : Option String
  next_step : Option String
  forecast_amount : Option ℚ
  forecast_probability : Option ℚ
  hubspot_created_at : Option String
  hubspot_updated_at : Option String
  archived : Bool
  raw_properties : List (String × String)
  scan_id : String
  tenant_id : Option String
  page_number : Nat
  source_service : String
deriving Repr, DecidableEq

/-- Python `int(properties.get("num_associated_contacts", 0)) if
properties.get("num_associated_contacts") else 0`: a falsy value gives 0;
a truthy unparseable value raises `ValueError`. -/
def int_or_raise (v : Option String) : Except String Int :=
  match truthy v with
  | none => Except.ok 0
  | some s =>
    match parseInt? s with
    | some n => Except.ok n
    | none => Except.error ("invalid literal for int: " ++ s)

/-- Python `float(properties.get(k)) if properties.get(k) else None`: a
falsy value gives `None`; a truthy unparseable value raises
`ValueError`. -/
def float_or_raise (v : Option String) : Except String (Option ℚ) :=
  match truthy v with
  | none => Except.ok none
  | some s =>
    match parseFloat? s with
    | some q => Except.ok (some q)
    | none => Except.error ("could not convert string to float: " ++ s)

/-- `transform_hubspot_deal` (`data_source.py` lines 11-79).  `amount`,
the three dates and `hs_deal_stage_probability` are parsed inside
`try/except` and degrade to `none`; `num_associated_contacts` (bare
`int(...)`), `hs_forecast_amount` and `hs_forecast_probability` (bare
`float(...)`) raise on unparseable truthy values, in the evaluation order
of the Python dict literal — the nested matches propagate the first
exception. -/
def transform_hubspot_deal (deal : RawDeal) (scan_id : String) (tenant_id : Option String)
    (page_number : Nat) : Except String TransformedDeal :=
  match int_or_raise (getProp deal.properties "num_associated_contacts") with
  | .error e => .error e
  | .ok num_associated_contacts =>
    match float_or_raise (getProp deal.properties "hs_forecast_amount") with
    | .error e => .error e
    | .ok forecast_amount =>
      match float_or_raise (getProp deal.properties "hs_forecast_probability") with
      | .error e => .error e
      | .ok forecast_probability =>
        Except.ok
          { deal_id := deal.id
            deal_name := getProp deal.properties "dealname"
            amount := safeFloat (getProp deal.properties "amount")
            deal_stage := getProp deal.properties "dealstage"
            close_date := parse_date (getProp deal.properties "closedate")
            pipeline := getProp deal.properties "pipeline"
            deal_type := getProp deal.properties "dealtype"
            hubspot_owner_id := getProp deal.properties "hubspot_owner_id"
            deal_stage_probability :=
              ((truthy (getProp deal.properties "hs_deal_stage_probability")).bind
                parseFloat?).map (fun q => q / 100)
            description := getProp deal.properties "description"
            analytics_source := getProp deal.properties "hs_analytics_source"
            num_associated_contacts := num_associated_contacts
            priority := getProp deal.properties "hs_priority"
            next_step := getProp deal.properties "hs_next_step"
            forecast_amount := forecast_amount
            forecast_probability := forecast_probability
            hubspot_created_at := parse_date (getProp deal.properties "createdate")
            hubspot_updated_at := parse_date (getProp deal.properties "hs_lastmodifieddate")
            archived := deal.archived
            raw_properties := deal.properties
            scan_id := scan_id
            tenant_id := tenant_id
            page_number := page_number
            source_service := "hubspot_deals" }

/-! ## The extraction engine (`get_hubspot_deals`, `data_source.py` lines 122-447) -/

/-- Checkpoint phases, matching the `"hubspot_deals_<phase>"` strings of the
source. -/
inductive Phase where
  | processing
  | paused
  | paused_mid_page
  | cancelled
  | completed
  | error
deriving Repr, DecidableEq

/-- A checkpoint handed to `checkpoint_callback`.  The `checkpoint_data`
payload (reasons, timestamps, error text) is phase-specific debug data and
is not modelled; no claim constrains it. -/
structure Checkpoint (σ : Type) where
  phase : Phase
  records_processed : Nat
  cursor : Option σ
  page_number : Nat
  batch_size : Nat
deriving Repr, DecidableEq

/-- One checkpoint emission: the checkpoint passed to the callback, plus
whether the callback persisted it (`false` when the callback raised — the
engine swallows that exception in every emission site). -/
structure CheckpointEmit (σ : Type) where
  cp : Checkpoint σ
  persisted : Bool
deriving Repr, DecidableEq

/-- A page as returned by `api_service.get_deals`: the `results` array and
the (truthiness-normalised) `paging.next.after` cursor. -/
structure ApiResponse (σ : Type) where
  results : List RawDeal
  next : Option σ
deriving Repr, DecidableEq

/-- Engine environment: the fetch function (which may raise, i.e. return
`.error`), the pause/cancel guard streams (`cancelSeq n` is the value of
`check_cancel_callback and check_cancel_callback(scan_id)` at its n-th
evaluation, `false` forever when the callback is absent; likewise
`pauseSeq`), checkpoint-callback presence and failure stream, and the
run-constant filter configuration. -/
structure EngineConfig (σ : Type) where
  fetch : Option σ → Except String (ApiResponse σ)
  cancelSeq : Nat → Bool
  pauseSeq : Nat → Bool
  hasCheckpointCb : Bool
  cbRaises : Nat → Bool
  deal_stages : Option (List String)
  pipelines : Option (List String)
  scan_id : String
  tenant_id : Option String

/-- Mutable loop state: `after`, `page_count`, `total_records` as in the
source, plus the evaluation counters for the three callback streams. -/
structure EngineState (σ : Type) where
  after : Option σ
  page_count : Nat
  total_records : Nat
  pauseIdx : Nat
  cancelIdx : Nat
  cbIdx : Nat
deriving Repr, DecidableEq

/-- How the run ended: a `break` after a completed/cancelled/paused
checkpoint, a mid-page `return`, a propagated exception, or the
`while page_count < 1000` guard going false. -/
inductive RunOutcome where
  | completed
  | cancelled
  | paused
  | pausedMidPage
  | errored (msg : String)
  | limitReached
deriving Repr, DecidableEq

/-- Observable trace of a run: records yielded downstream, checkpoint
emissions (in order), cursors passed to `get_deals` (in order), how the
run ended, and the final loop state. -/
structure RunResult (σ : Type) where
  emitted : List TransformedDeal
  checkpoints : List (CheckpointEmit σ)
  fetched : List (Option σ)
  outcome : RunOutcome
  final : EngineState σ
deriving Repr, DecidableEq

/-- One guarded `checkpoint_callback(scan_id, cp)` call wrapped in
`try/except`: skipped when the callback is absent; a raising callback is
recorded as non-persisted but has no other effect.  Returns the emissions
and the next callback-invocation index. -/
def emitCp {σ : Type} (cfg : EngineConfig σ) (b : Nat) (cp : Checkpoint σ) :
    List (CheckpointEmit σ) × Nat :=
  if cfg.hasCheckpointCb then ([⟨cp, !cfg.cbRaises b⟩], b + 1) else ([], b)

/-- `deal_stages and transformed_deal.get("deal_stage") not in deal_stages`
(and the same for pipelines): an absent or empty allow-list is falsy and
filters nothing; otherwise the record is discarded when its value is not
in the list. -/
def rejectsAllow (allow : Option (List String)) (v : Option String) : Bool :=
  match allow with
  | none => false
  | some l => !l.isEmpty && !(l.any (fun x => some x == v))

/-- Result of the `for deal in deals` loop of one page: a mid-page pause
(`return` from the generator, after emitting its checkpoint), a propagated
exception from `transform_hubspot_deal`, or normal completion carrying the
page's emissions, `page_records`, and the advanced stream counters. -/
inductive PageResult (σ : Type) where
  | pausedMid (emits : List TransformedDeal) (cps : List (CheckpointEmit σ))
  | errored (emits : List TransformedDeal) (msg : String)
  | done (emits : List TransformedDeal) (page_records pauseIdx cbIdx : Nat)
deriving Repr

/-- The per-record loop (`data_source.py` lines 272-322): before each
record the pause guard is re-evaluated; on pause a `paused_mid_page`
checkpoint is emitted with `records_processed = total_records +
page_records` and the current (unchanged) cursor; otherwise the record is
transformed, the stage/pipeline filters applied, and qualifying records
are yielded, incrementing `page_records`. -/
def processRecords {σ : Type} (cfg : EngineConfig σ) (after : Option σ)
    (page_count total_records : Nat) :
    List RawDeal → Nat → Nat → Nat → PageResult σ
  | [], page_records, pIdx, b => .done [] page_records pIdx b
  | deal :: rest, page_records, pIdx, b =>
    if cfg.pauseSeq pIdx then
      let cp : Checkpoint σ :=
        ⟨.paused_mid_page, total_records + page_records, after, page_count, 100⟩
      .pausedMid [] (emitCp cfg b cp).1
    else
      match transform_hubspot_deal deal cfg.scan_id cfg.tenant_id (page_count + 1) with
      | .error e => .errored [] e
      | .ok td =>
        if rejectsAllow cfg.deal_stages td.deal_stage ||
            rejectsAllow cfg.pipelines td.pipeline then
          processRecords cfg after page_count total_records rest page_records (pIdx + 1) b
        else
          match processRecords cfg after page_count total_records rest
              (page_records + 1) (pIdx + 1) b with
          | .pausedMid em cps => .pausedMid (td :: em) cps
          | .errored em e => .errored (td :: em) e
          | .done em pr p c => .done (td :: em) pr p c

/-- The main `while page_count < 1000` loop.  `fuel` stands for
`1000 - page_count` (each iteration that loops again increments
`page_count`), so `fuel = 0` is exactly the loop guard going false.
Iteration order mirrors the source: cancellation check, pause check,
fetch (whose failure — like any exception raised in the loop body — lands
in the `except` clause that emits an `error` checkpoint with the
unchanged cursor and re-raises), per-record processing, counter update,
periodic `processing` checkpoint every 5th page carrying the *next*
cursor, then the pagination decision (`completed` checkpoint with null
cursor when no next cursor). -/
def runLoop {σ : Type} (cfg : EngineConfig σ) : Nat → EngineState σ → RunResult σ
  | 0, st => ⟨[], [], [], .limitReached, st⟩
  | fuel + 1, st =>
    if cfg.cancelSeq st.cancelIdx then
      let ec := emitCp cfg st.cbIdx ⟨.cancelled, st.total_records, st.after, st.page_count, 100⟩
      ⟨[], ec.1, [], .cancelled,
        { st with cancelIdx := st.cancelIdx + 1, cbIdx := ec.2 }⟩
    else if cfg.pauseSeq st.pauseIdx then
      let ec := emitCp cfg st.cbIdx ⟨.paused, st.total_records, st.after, st.page_count, 100⟩
      ⟨[], ec.1, [], .paused,
        { st with cancelIdx := st.cancelIdx + 1, pauseIdx := st.pauseIdx + 1, cbIdx := ec.2 }⟩
    else
      match cfg.fetch st.after with
      | .error e =>
        let ec := emitCp cfg st.cbIdx ⟨.error, st.total_records, st.after, st.page_count, 100⟩
        ⟨[], ec.1, [st.after], .errored e,
          { st with cancelIdx := st.cancelIdx + 1, pauseIdx := st.pauseIdx + 1, cbIdx := ec.2 }⟩
      | .ok data =>
        match processRecords cfg st.after st.page_count st.total_records
            data.results 0 (st.pauseIdx + 1) st.cbIdx with
        | .pausedMid em cps =>
          ⟨em, cps, [st.after], .pausedMidPage,
            { st with cancelIdx := st.cancelIdx + 1, pauseIdx := st.pauseIdx + 1 }⟩
        | .errored em e =>
          let ec := emitCp cfg st.cbIdx ⟨.error, st.total_records, st.after, st.page_count, 100⟩
          ⟨em, ec.1, [st.after], .errored e,
            { st with cancelIdx := st.cancelIdx + 1, pauseIdx := st.pauseIdx + 1, cbIdx := ec.2 }⟩
        | .done em page_records pIdx2 b2 =>
          let total2 := st.total_records + page_records
          let pc2 := st.page_count + 1
          let ec1 :=
            if pc2 % 5 = 0 then
              emitCp cfg b2 ⟨.processing, total2, data.next, pc2, 100⟩
            else ([], b2)
          match data.next with
          | some nxt =>
            let r := runLoop cfg fuel ⟨some nxt, pc2, total2, pIdx2, st.cancelIdx + 1, ec1.2⟩
            ⟨em ++ r.emitted, ec1.1 ++ r.checkpoints, st.after :: r.fetched, r.outcome, r.final⟩
          | none =>
            let ec2 := emitCp cfg ec1.2 ⟨.completed, total2, none, pc2, 100⟩
            ⟨em, ec1.1 ++ ec2.1, [st.after], .completed,
              ⟨st.after, pc2, total2, pIdx2, st.cancelIdx + 1, ec2.2⟩⟩

/-- A whole run from a given initial state (fresh, or seeded from
`resume_from`): the loop runs while `page_count < 1000`. -/
def run {σ : Type} (cfg : EngineConfig σ) (st : EngineState σ) : RunResult σ :=
  runLoop cfg (1000 - st.page_count) st

/-- Fresh-run initial state: `after = None`, `page_count = 0`,
`total_records = 0`. -/
def initState {σ : Type} : EngineState σ := ⟨none, 0, 0, 0, 0, 0⟩

/-- Initial state seeded from a `resume_from` dict
`{cursor, page_number, records_processed}`. -/
def resumeState {σ : Type} (cursor : Option σ) (page_number records_processed : Nat) :
    EngineState σ :=
  ⟨cursor, page_number, records_processed, 0, 0, 0⟩

/-! ## The API client retry loop (`hubspot_api_service.py` lines 76-122) -/

/-- Outcome of one outbound HTTP attempt: a response with its status code
and optional `Retry-After` header, or a raised `RequestException`. -/
inductive HttpAttempt where
  | response (status : Nat) (retryAfter : Option Nat)
  | exn (msg : String)
deriving Repr, DecidableEq

/-- Result of `_make_request`: the status of the returned response, or the
message of the propagated exception. -/
inductive ReqResult where
  | success (status : Nat)
  | failure (msg : String)
deriving Repr, DecidableEq

/-- The body of `_make_request`'s `for attempt in range(3)` loop.  `fuel`
is the number of loop iterations left (`3 - attempt`); the `attempt = 2`
test mirrors `attempt == max_retries - 1`.  A 429 response sleeps
`Retry-After` (default 1) and *continues the for loop*, so it consumes an
attempt; any other status `>= 400` raises via `raise_for_status` and any
`RequestException` is retried after `2 ** attempt` seconds plus the
sub-second `jitter`, except on the last attempt where it propagates.
Falling out of the loop raises the max-retries exception.  The second
component collects the sleep durations (the rate-limiter wait is real
time and not modelled). -/
def makeRequestAux (attempts : Nat → HttpAttempt) (jitter : Nat → ℚ) :
    Nat → Nat → ReqResult × List ℚ
  | 0, _ => (.failure "Max retries (3) exceeded", [])
  | fuel + 1, attempt =>
    match attempts attempt with
    | .response s ra =>
      if s = 429 then
        (
          (makeRequestAux attempts jitter fuel (attempt + 1)).1,
          ((ra.getD 1 : Nat) : ℚ) :: (makeRequestAux attempts jitter fuel (attempt + 1)).2)
      else if s < 400 then (.success s, [])
      else if attempt = 2 then (.failure ("HTTP error " ++ toString s), [])
      else
        (
          (makeRequestAux attempts jitter fuel (attempt + 1)).1,
          (((2 ^ attempt : Nat) : ℚ) + jitter attempt) ::
            (makeRequestAux attempts jitter fuel (attempt + 1)).2)
    | .exn msg =>
      if attempt = 2 then (.failure msg, [])
      else
        (
          (makeRequestAux attempts jitter fuel (attempt + 1)).1,
          (((2 ^ attempt : Nat) : ℚ) + jitter attempt) ::
            (makeRequestAux attempts jitter fuel (attempt + 1)).2)

/-- `_make_request` with `max_retries = 3`. -/
def makeRequest (attempts : Nat → HttpAttempt) (jitter : Nat → ℚ) : ReqResult × List ℚ :=
  makeRequestAux attempts jitter 3 0

/-! ## Cursor chains

The claims quantify over finite page sequences whose cursors chain
`c0 -> c1 -> ... -> cn -> None`.  Cursors are opaque to the engine, so we
realise the chain over `σ := Nat`: page `i` (for `i ≥ 1`) is reached via
cursor `i`, page `0` via the initial `None`. -/

/-- One remote page: its raw records (the linking cursors are determined
by the chain position). -/
structure Page where
  results : List RawDeal
deriving Repr, DecidableEq

/-- The cursor with which page `i` of a chain is fetched. -/
def cursorAt (i : Nat) : Option Nat := if i = 0 then none else some i

/-- A well-behaved API serving the chain `ps`: fetching page `i` returns
its records and cursor `i+1` when a further page exists; out-of-range
cursors (which the chain itself never produces) yield an empty final
page. -/
def chainFetch (ps : List Page) (c : Option Nat) : Except String (ApiResponse Nat) :=
  match ps[c.getD 0]? with
  | some p => .ok ⟨p.results, if c.getD 0 + 1 < ps.length then some (c.getD 0 + 1) else none⟩
  | none => .ok ⟨[], none⟩

/-- The all-false guard stream: callback absent, or present and never
requesting. -/
def falseSeq : Nat → Bool := fun _ => false

/-- Engine configuration for a run against the chain `ps` with the given
guard streams, checkpoint-failure stream and allow-list filters; the
checkpoint callback is present. -/
def chainCfg (ps : List Page) (cSeq pSeq cbR : Nat → Bool)
    (ds pl : Option (List String)) : EngineConfig Nat :=
  { fetch := chainFetch ps
    cancelSeq := cSeq
    pauseSeq := pSeq
    hasCheckpointCb := true
    cbRaises := cbR
    deal_stages := ds
    pipelines := pl
    scan_id := "s"
    tenant_id := none }

/-- The qualifying (transformed, post-filter) records of one page's
`results` array, in array order, when processed at `page_count = pc`. -/
def qualList {σ : Type} (cfg : EngineConfig σ) (pc : Nat) (deals : List RawDeal) :
    List TransformedDeal :=
  deals.filterMap fun d =>
    match transform_hubspot_deal d cfg.scan_id cfg.tenant_id (pc + 1) with
    | .error _ => none
    | .ok td =>
      if rejectsAllow cfg.deal_stages td.deal_stage ||
          rejectsAllow cfg.pipelines td.pipeline then none
      else some td

/-- Qualifying records of the pages `l`, the first of which sits at chain
position `i`, in page order then array order. -/
def emitsFrom {σ : Type} (cfg : EngineConfig σ) : List Page → Nat → List TransformedDeal
  | [], _ => []
  | p :: rest, i => qualList cfg i p.results ++ emitsFrom cfg rest (i + 1)

/-- `transform_hubspot_deal` succeeds on this deal at this page. -/
def transformOk {σ : Type} (cfg : EngineConfig σ) (pc : Nat) (d : RawDeal) : Bool :=
  match transform_hubspot_deal d cfg.scan_id cfg.tenant_id (pc + 1) with
  | .ok _ => true
  | .error _ => false

/-- Number of pause-guard evaluations consumed by fully processing the
first `i` pages of the chain: one page-boundary check plus one per raw
record. -/
def pollCount (ps : List Page) (i : Nat) : Nat :=
  ((ps.take i).map (fun p => 1 + p.results.length)).sum

/-! ## Lemmas about the per-record loop -/

/-- With no pause request during the page and no transformation failure,
the per-record loop emits exactly the qualifying records of the page, in
array order, advancing `page_records` by their number and the pause
counter by one per raw record. -/
lemma processRecords_clean {σ : Type} (cfg : EngineConfig σ) (after : Option σ)
    (pc t : Nat) :
    ∀ (deals : List RawDeal) (pr pIdx b : Nat),
      (∀ k, k < deals.length → cfg.pauseSeq (pIdx + k) = false) →
      (∀ d ∈ deals, transformOk cfg pc d = true) →
      processRecords cfg after pc t deals pr pIdx b =
        .done (qualList cfg pc deals) (pr + (qualList cfg pc deals).length)
          (pIdx + deals.length) b := by
  intro deals
  induction deals with
  | nil =>
    intro pr pIdx b _ _
    simp [processRecords, qualList]
  | cons deal rest ih =>
    intro pr pIdx b hp ht
    have h0 : cfg.pauseSeq pIdx = false := by simpa using hp 0 (by simp)
    have hd : transformOk cfg pc deal = true := ht deal (by simp)
    have hshift : ∀ k, k < rest.length → cfg.pauseSeq (pIdx + 1 + k) = false := by
      intro k hk
      have h := hp (k + 1) (by simp only [List.length_cons]; omega)
      rwa [show pIdx + (k + 1) = pIdx + 1 + k from by omega] at h
    have ht2 : ∀ d ∈ rest, transformOk cfg pc d = true := fun d hdm => ht d (by simp [hdm])
    cases htr : transform_hubspot_deal deal cfg.scan_id cfg.tenant_id (pc + 1) with
    | error e => simp [transformOk, htr] at hd
    | ok td =>
      cases hf : (rejectsAllow cfg.deal_stages td.deal_stage ||
          rejectsAllow cfg.pipelines td.pipeline) with
      | true =>
        rw [processRecords]
        simp only [h0, Bool.false_eq_true, if_false, htr, hf, if_true]
        rw [ih pr (pIdx + 1) b hshift ht2]
        have hq : qualList cfg pc (deal :: rest) = qualList cfg pc rest := by
          simp only [qualList, List.filterMap_cons, htr]; rw [hf]; simp
        rw [hq]
        have h2 : pIdx + 1 + rest.length = pIdx + (deal :: rest).length := by
          simp only [List.length_cons]; omega
        rw [h2]
      | false =>
        rw [processRecords]
        simp only [h0, Bool.false_eq_true, if_false, htr, hf]
        rw [ih (pr + 1) (pIdx + 1) b hshift ht2]
        have hq : qualList cfg pc (deal :: rest) = td :: qualList cfg pc rest := by
          simp only [qualList, List.filterMap_cons, htr]; rw [hf]; simp
        rw [hq]
        have h1 : pr + 1 + (qualList cfg pc rest).length =
            pr + (td :: qualList cfg pc rest).length := by
          simp only [List.length_cons]; omega
        have h2 : pIdx + 1 + rest.length = pIdx + (deal :: rest).length := by
          simp only [List.length_cons]; omega
        rw [h1, h2]

/-- If the pause guard is false for the checks before the first `j`
records and true at the check before record `j`, the per-record loop
stops right there: it has emitted the qualifying records among the first
`j`, and it emits a `paused_mid_page` checkpoint whose
`records_processed` is `total_records` plus the page's emitted count and
whose cursor is the page's own (unchanged) cursor. -/
lemma processRecords_pausedAt {σ : Type} (cfg : EngineConfig σ) (after : Option σ)
    (pc t : Nat) :
    ∀ (deals : List RawDeal) (j pr pIdx b : Nat),
      j < deals.length →
      (∀ k, k < j → cfg.pauseSeq (pIdx + k) = false) →
      cfg.pauseSeq (pIdx + j) = true →
      (∀ d ∈ deals.take j, transformOk cfg pc d = true) →
      processRecords cfg after pc t deals pr pIdx b =
        .pausedMid (qualList cfg pc (deals.take j))
          (emitCp cfg b ⟨.paused_mid_page,
            t + (pr + (qualList cfg pc (deals.take j)).length), after, pc, 100⟩).1 := by
  intro deals
  induction deals with
  | nil => intro j pr pIdx b hj; simp at hj
  | cons deal rest ih =>
    intro j pr pIdx b hj hfalse htrue hok
    cases j with
    | zero =>
      have h0 : cfg.pauseSeq pIdx = true := by simpa using htrue
      rw [processRecords]
      simp [h0, qualList]
    | succ j =>
      have h0 : cfg.pauseSeq pIdx = false := by simpa using hfalse 0 (by omega)
      have hd : transformOk cfg pc deal = true := hok deal (by simp)
      have hshift : ∀ k, k < j → cfg.pauseSeq (pIdx + 1 + k) = false := by
        intro k hk
        have h := hfalse (k + 1) (by omega)
        rwa [show pIdx + (k + 1) = pIdx + 1 + k from by omega] at h
      have htrue2 : cfg.pauseSeq (pIdx + 1 + j) = true := by
        rwa [show pIdx + (j + 1) = pIdx + 1 + j from by omega] at htrue
      have hok2 : ∀ d ∈ rest.take j, transformOk cfg pc d = true := by
        intro d hdm
        exact hok d (by simp [hdm])
      have hj2 : j < rest.length := by simp only [List.length_cons] at hj; omega
      cases htr : transform_hubspot_deal deal cfg.scan_id cfg.tenant_id (pc + 1) with
      | error e => simp [transformOk, htr] at hd
      | ok td =>
        cases hf : (rejectsAllow cfg.deal_stages td.deal_stage ||
            rejectsAllow cfg.pipelines td.pipeline) with
        | true =>
          rw [processRecords]
          simp only [h0, Bool.false_eq_true, if_false, htr, hf, if_true]
          rw [ih j pr (pIdx + 1) b hj2 hshift htrue2 hok2]
          have hq : qualList cfg pc ((deal :: rest).take (j + 1)) =
              qualList cfg pc (rest.take j) := by
            simp only [qualList, List.take_succ_cons, List.filterMap_cons, htr]
            rw [hf]; simp
          rw [hq]
        | false =>
          rw [processRecords]
          simp only [h0, Bool.false_eq_true, if_false, htr, hf]
          rw [ih j (pr + 1) (pIdx + 1) b hj2 hshift htrue2 hok2]
          have hq : qualList cfg pc ((deal :: rest).take (j + 1)) =
              td :: qualList cfg pc (rest.take j) := by
            simp only [qualList, List.take_succ_cons, List.filterMap_cons, htr]
            rw [hf]; simp
          rw [hq]
          have h1 : pr + 1 + (qualList cfg pc (rest.take j)).length =
              pr + (td :: qualList cfg pc (rest.take j)).length := by
            simp only [List.length_cons]; omega
          rw [h1]

/-- If the records before `bad` all transform fine (and no pause request
arrives first) but `bad`\'s transformation raises, the loop propagates the
exception, having already emitted the qualifying records before `bad`. -/
lemma processRecords_erroredAt {σ : Type} (cfg : EngineConfig σ) (after : Option σ)
    (pc t : Nat) (bad : RawDeal) (e : String) :
    ∀ (good rest : List RawDeal) (pr pIdx b : Nat),
      (∀ k, k ≤ good.length → cfg.pauseSeq (pIdx + k) = false) →
      (∀ d ∈ good, transformOk cfg pc d = true) →
      transform_hubspot_deal bad cfg.scan_id cfg.tenant_id (pc + 1) = .error e →
      processRecords cfg after pc t (good ++ bad :: rest) pr pIdx b =
        .errored (qualList cfg pc good) e := by
  intro good
  induction good with
  | nil =>
    intro rest pr pIdx b hp _ hbad
    have h0 : cfg.pauseSeq pIdx = false := by simpa using hp 0 (by omega)
    rw [List.nil_append, processRecords]
    simp only [h0, Bool.false_eq_true, if_false, hbad]
    simp [qualList]
  | cons deal restg ih =>
    intro rest pr pIdx b hp hok hbad
    have h0 : cfg.pauseSeq pIdx = false := by simpa using hp 0 (by omega)
    have hd : transformOk cfg pc deal = true := hok deal (by simp)
    have hshift : ∀ k, k ≤ restg.length → cfg.pauseSeq (pIdx + 1 + k) = false := by
      intro k hk
      have h := hp (k + 1) (by simp only [List.length_cons]; omega)
      rwa [show pIdx + (k + 1) = pIdx + 1 + k from by omega] at h
    have hok2 : ∀ d ∈ restg, transformOk cfg pc d = true := by
      intro d hdm
      exact hok d (by simp [hdm])
    cases htr : transform_hubspot_deal deal cfg.scan_id cfg.tenant_id (pc + 1) with
    | error e2 => simp [transformOk, htr] at hd
    | ok td =>
      cases hf : (rejectsAllow cfg.deal_stages td.deal_stage ||
          rejectsAllow cfg.pipelines td.pipeline) with
      | true =>
        rw [List.cons_append, processRecords]
        simp only [h0, Bool.false_eq_true, if_false, htr, hf, if_true]
        rw [ih rest pr (pIdx + 1) b hshift hok2 hbad]
        have hq : qualList cfg pc (deal :: restg) = qualList cfg pc restg := by
          simp only [qualList, List.filterMap_cons, htr]; rw [hf]; simp
        rw [hq]
      | false =>
        rw [List.cons_append, processRecords]
        simp only [h0, Bool.false_eq_true, if_false, htr, hf]
        rw [ih rest (pr + 1) (pIdx + 1) b hshift hok2 hbad]
        have hq : qualList cfg pc (deal :: restg) = td :: qualList cfg pc restg := by
          simp only [qualList, List.filterMap_cons, htr]; rw [hf]; simp
        rw [hq]

/-! ## One-iteration unfolding lemmas for the main loop -/

/-- Iteration entered with the cancel guard true: a `cancelled` checkpoint
with the current totals and (unfetched) cursor, and the run stops. -/
lemma runLoop_cancel {σ : Type} (cfg : EngineConfig σ) (fuel : Nat) (a : Option σ)
    (pc t pI cI b : Nat) (hc : cfg.cancelSeq cI = true) :
    runLoop cfg (fuel + 1) ⟨a, pc, t, pI, cI, b⟩ =
      ⟨[], (emitCp cfg b ⟨.cancelled, t, a, pc, 100⟩).1, [], .cancelled,
        ⟨a, pc, t, pI, cI + 1, (emitCp cfg b ⟨.cancelled, t, a, pc, 100⟩).2⟩⟩ := by
  simp [runLoop, hc]

/-- Iteration with cancel false and the page-boundary pause guard true: a
`paused` checkpoint, and the run stops. -/
lemma runLoop_pauseB {σ : Type} (cfg : EngineConfig σ) (fuel : Nat) (a : Option σ)
    (pc t pI cI b : Nat) (hc : cfg.cancelSeq cI = false) (hp : cfg.pauseSeq pI = true) :
    runLoop cfg (fuel + 1) ⟨a, pc, t, pI, cI, b⟩ =
      ⟨[], (emitCp cfg b ⟨.paused, t, a, pc, 100⟩).1, [], .paused,
        ⟨a, pc, t, pI + 1, cI + 1, (emitCp cfg b ⟨.paused, t, a, pc, 100⟩).2⟩⟩ := by
  simp [runLoop, hc, hp]

/-- Iteration whose fetch raises: an `error` checkpoint with the cursor
that was in use and the totals from before the page, then the exception
propagates. -/
lemma runLoop_fetchErr {σ : Type} (cfg : EngineConfig σ) (fuel : Nat) (a : Option σ)
    (pc t pI cI b : Nat) (e : String)
    (hc : cfg.cancelSeq cI = false) (hp : cfg.pauseSeq pI = false)
    (hf : cfg.fetch a = .error e) :
    runLoop cfg (fuel + 1) ⟨a, pc, t, pI, cI, b⟩ =
      ⟨[], (emitCp cfg b ⟨.error, t, a, pc, 100⟩).1, [a], .errored e,
        ⟨a, pc, t, pI + 1, cI + 1, (emitCp cfg b ⟨.error, t, a, pc, 100⟩).2⟩⟩ := by
  simp [runLoop, hc, hp, hf]

/-- Iteration whose per-record loop hits a mid-page pause: the loop's
emissions and mid-page checkpoint are the iteration's whole output and
the generator returns. -/
lemma runLoop_midPause {σ : Type} (cfg : EngineConfig σ) (fuel : Nat) (a : Option σ)
    (pc t pI cI b : Nat) (data : ApiResponse σ) (em : List TransformedDeal)
    (cps : List (CheckpointEmit σ))
    (hc : cfg.cancelSeq cI = false) (hp : cfg.pauseSeq pI = false)
    (hf : cfg.fetch a = .ok data)
    (hpr : processRecords cfg a pc t data.results 0 (pI + 1) b = .pausedMid em cps) :
    runLoop cfg (fuel + 1) ⟨a, pc, t, pI, cI, b⟩ =
      ⟨em, cps, [a], .pausedMidPage, ⟨a, pc, t, pI + 1, cI + 1, b⟩⟩ := by
  simp [runLoop, hc, hp, hf, hpr]

/-- Iteration whose per-record loop raises (a transformation failure):
the records already yielded stand, an `error` checkpoint is emitted with
the totals from *before* the page and the page's own cursor, and the
exception propagates. -/
lemma runLoop_recErr {σ : Type} (cfg : EngineConfig σ) (fuel : Nat) (a : Option σ)
    (pc t pI cI b : Nat) (data : ApiResponse σ) (em : List TransformedDeal) (e : String)
    (hc : cfg.cancelSeq cI = false) (hp : cfg.pauseSeq pI = false)
    (hf : cfg.fetch a = .ok data)
    (hpr : processRecords cfg a pc t data.results 0 (pI + 1) b = .errored em e) :
    runLoop cfg (fuel + 1) ⟨a, pc, t, pI, cI, b⟩ =
      ⟨em, (emitCp cfg b ⟨.error, t, a, pc, 100⟩).1, [a], .errored e,
        ⟨a, pc, t, pI + 1, cI + 1, (emitCp cfg b ⟨.error, t, a, pc, 100⟩).2⟩⟩ := by
  simp [runLoop, hc, hp, hf, hpr]

/-- The periodic-checkpoint step after completing a page: on every 5th
page a `processing` checkpoint carrying the *next* cursor and the updated
totals is emitted. -/
def procPair {σ : Type} (cfg : EngineConfig σ) (b2 t2 pc2 : Nat) (nx : Option σ) :
    List (CheckpointEmit σ) × Nat :=
  if pc2 % 5 = 0 then emitCp cfg b2 ⟨.processing, t2, nx, pc2, 100⟩ else ([], b2)

/-- Clean iteration with a next cursor: the page's qualifying records are
emitted, the optional periodic `processing` checkpoint is written, and the
loop continues at the next cursor with one less fuel. -/
lemma runLoop_cont {σ : Type} (cfg : EngineConfig σ) (fuel : Nat) (a : Option σ)
    (pc t pI cI b : Nat) (data : ApiResponse σ) (em : List TransformedDeal)
    (pr pIdx2 b2 : Nat) (nxt : σ)
    (hc : cfg.cancelSeq cI = false) (hp : cfg.pauseSeq pI = false)
    (hf : cfg.fetch a = .ok data)
    (hpr : processRecords cfg a pc t data.results 0 (pI + 1) b = .done em pr pIdx2 b2)
    (hnext : data.next = some nxt) :
    runLoop cfg (fuel + 1) ⟨a, pc, t, pI, cI, b⟩ =
      ⟨em ++ (runLoop cfg fuel ⟨some nxt, pc + 1, t + pr, pIdx2, cI + 1,
          (procPair cfg b2 (t + pr) (pc + 1) (some nxt)).2⟩).emitted,
       (procPair cfg b2 (t + pr) (pc + 1) (some nxt)).1 ++
         (runLoop cfg fuel ⟨some nxt, pc + 1, t + pr, pIdx2, cI + 1,
           (procPair cfg b2 (t + pr) (pc + 1) (some nxt)).2⟩).checkpoints,
       a :: (runLoop cfg fuel ⟨some nxt, pc + 1, t + pr, pIdx2, cI + 1,
           (procPair cfg b2 (t + pr) (pc + 1) (some nxt)).2⟩).fetched,
       (runLoop cfg fuel ⟨some nxt, pc + 1, t + pr, pIdx2, cI + 1,
           (procPair cfg b2 (t + pr) (pc + 1) (some nxt)).2⟩).outcome,
       (runLoop cfg fuel ⟨some nxt, pc + 1, t + pr, pIdx2, cI + 1,
           (procPair cfg b2 (t + pr) (pc + 1) (some nxt)).2⟩).final⟩ := by
  simp [runLoop, procPair, hc, hp, hf, hpr, hnext]

/-- Clean iteration with no next cursor: the page's qualifying records
are emitted, the optional periodic `processing` checkpoint is written
(with cursor `none`), then the final `completed` checkpoint with a null
cursor, and the run stops. -/
lemma runLoop_final {σ : Type} (cfg : EngineConfig σ) (fuel : Nat) (a : Option σ)
    (pc t pI cI b : Nat) (data : ApiResponse σ) (em : List TransformedDeal)
    (pr pIdx2 b2 : Nat)
    (hc : cfg.cancelSeq cI = false) (hp : cfg.pauseSeq pI = false)
    (hf : cfg.fetch a = .ok data)
    (hpr : processRecords cfg a pc t data.results 0 (pI + 1) b = .done em pr pIdx2 b2)
    (hnext : data.next = none) :
    runLoop cfg (fuel + 1) ⟨a, pc, t, pI, cI, b⟩ =
      ⟨em,
       (procPair cfg b2 (t + pr) (pc + 1) none).1 ++
         (emitCp cfg (procPair cfg b2 (t + pr) (pc + 1) none).2
           ⟨.completed, t + pr, none, pc + 1, 100⟩).1,
       [a], .completed,
       ⟨a, pc + 1, t + pr, pIdx2, cI + 1,
        (emitCp cfg (procPair cfg b2 (t + pr) (pc + 1) none).2
          ⟨.completed, t + pr, none, pc + 1, 100⟩).2⟩⟩ := by
  simp [runLoop, procPair, hc, hp, hf, hpr, hnext]

/-! ## Chain lemmas -/

lemma cursorAt_getD (i : Nat) : (cursorAt i).getD 0 = i := by
  cases i <;> simp [cursorAt]

lemma cursorAt_succ (i : Nat) : cursorAt (i + 1) = some (i + 1) := by
  simp [cursorAt]

lemma cursorAt_inj {i j : Nat} (h : cursorAt i = cursorAt j) : i = j := by
  have := congrArg (fun o => Option.getD o 0) h
  simpa [cursorAt_getD] using this

/-- Fetching the chain at the cursor of an existing page `i` returns that
page's records and the cursor of page `i+1` when it exists. -/
lemma chainFetch_at {ps : List Page} {i : Nat} {page : Page} (h : ps[i]? = some page) :
    chainFetch ps (cursorAt i) =
      .ok ⟨page.results, if i + 1 < ps.length then some (i + 1) else none⟩ := by
  simp only [chainFetch, cursorAt_getD, h]

/-- Pause-guard evaluations consumed by fully processing the pages `l`:
one boundary check plus one per raw record, per page. -/
def pagePolls (l : List Page) : Nat :=
  (l.map (fun p => 1 + p.results.length)).sum

lemma pollCount_eq (ps : List Page) (i : Nat) : pollCount ps i = pagePolls (ps.take i) := rfl

/-- Advancing over a clean prefix: if the pages `l` sit at chain positions
`i, ..., i + |l| - 1`, a further page exists, the configured fetch agrees
with the chain on those cursors, no cancel or pause request arrives while
they are processed, and all their records transform, then the run from
boundary `i` emits exactly their qualifying records, fetches exactly their
cursors, and continues as the run from boundary `i + |l|` with the
accumulated totals. -/
lemma runLoop_advance (cfg : EngineConfig Nat) (ps : List Page) :
    ∀ (l : List Page) (i fuel t pI cI b : Nat),
      (ps.drop i).take l.length = l →
      i + l.length < ps.length →
      l.length ≤ fuel →
      (∀ k, k < l.length → cfg.fetch (cursorAt (i + k)) = chainFetch ps (cursorAt (i + k))) →
      (∀ k, k < l.length → cfg.cancelSeq (cI + k) = false) →
      (∀ n, n < pagePolls l → cfg.pauseSeq (pI + n) = false) →
      (∀ (k : Nat) (page : Page), ps[k]? = some page → i ≤ k → k < i + l.length →
        ∀ d ∈ page.results, transformOk cfg k d = true) →
      ∃ b2 pre,
        runLoop cfg fuel ⟨cursorAt i, i, t, pI, cI, b⟩ =
          ⟨emitsFrom cfg l i ++ (runLoop cfg (fuel - l.length)
              ⟨cursorAt (i + l.length), i + l.length, t + (emitsFrom cfg l i).length,
               pI + pagePolls l, cI + l.length, b2⟩).emitted,
           pre ++ (runLoop cfg (fuel - l.length)
              ⟨cursorAt (i + l.length), i + l.length, t + (emitsFrom cfg l i).length,
               pI + pagePolls l, cI + l.length, b2⟩).checkpoints,
           (List.range' i l.length).map cursorAt ++ (runLoop cfg (fuel - l.length)
              ⟨cursorAt (i + l.length), i + l.length, t + (emitsFrom cfg l i).length,
               pI + pagePolls l, cI + l.length, b2⟩).fetched,
           (runLoop cfg (fuel - l.length)
              ⟨cursorAt (i + l.length), i + l.length, t + (emitsFrom cfg l i).length,
               pI + pagePolls l, cI + l.length, b2⟩).outcome,
           (runLoop cfg (fuel - l.length)
              ⟨cursorAt (i + l.length), i + l.length, t + (emitsFrom cfg l i).length,
               pI + pagePolls l, cI + l.length, b2⟩).final⟩ := by
  intro l
  induction l with
  | nil =>
    intro i fuel t pI cI b _ _ _ _ _ _ _
    refine ⟨b, [], ?_⟩
    simp [emitsFrom, pagePolls]
  | cons p rest ih =>
    intro i fuel t pI cI b htake hlt hfuel hfetch hcancel hpause hok
    -- identify page p and the remaining chain
    rcases hd : ps.drop i with _ | ⟨q, qs⟩
    · rw [hd] at htake; simp at htake
    rw [hd] at htake
    simp only [List.length_cons, List.take_succ_cons, List.cons.injEq] at htake
    obtain ⟨rfl, hrest⟩ := htake
    have hpi : ps[i]? = some q := by
      rw [← List.head?_drop, hd]
      rfl
    have hdrop1 : ps.drop (i + 1) = qs := by
      rw [← List.tail_drop, hd]
      rfl
    have htake2 : (ps.drop (i + 1)).take rest.length = rest := by
      rw [hdrop1]; exact hrest
    have hi1lt : i + 1 < ps.length := by
      simp only [List.length_cons] at hlt; omega
    -- peel one unit of fuel
    obtain ⟨f, rfl⟩ : ∃ f, fuel = f + 1 := by
      refine ⟨fuel - 1, ?_⟩
      simp only [List.length_cons] at hfuel
      omega
    -- the clean first iteration
    have hc0 : cfg.cancelSeq cI = false := by simpa using hcancel 0 (by simp)
    have hp0 : cfg.pauseSeq pI = false := by
      have hgt : 0 < pagePolls (q :: rest) := by
        simp only [pagePolls, List.map_cons, List.sum_cons]
        omega
      simpa using hpause 0 hgt
    have hf0 : cfg.fetch (cursorAt i) = .ok ⟨q.results, some (i + 1)⟩ := by
      have h := hfetch 0 (by simp)
      rw [Nat.add_zero] at h
      rw [h, chainFetch_at hpi, if_pos hi1lt]
    have hprec : ∀ k, k < q.results.length → cfg.pauseSeq (pI + 1 + k) = false := by
      intro k hk
      have hb : 1 + k < pagePolls (q :: rest) := by
        simp only [pagePolls, List.map_cons, List.sum_cons]
        omega
      have h := hpause (1 + k) hb
      rwa [show pI + (1 + k) = pI + 1 + k from by omega] at h
    have hokp : ∀ d ∈ q.results, transformOk cfg i d = true :=
      fun d hdm => hok i q hpi (Nat.le_refl i) (by simp only [List.length_cons]; omega) d hdm
    have hpr : processRecords cfg (cursorAt i) i t q.results 0 (pI + 1) b =
        .done (qualList cfg i q.results) (0 + (qualList cfg i q.results).length)
          (pI + 1 + q.results.length) b :=
      processRecords_clean cfg (cursorAt i) i t q.results 0 (pI + 1) b hprec hokp
    have hstep := runLoop_cont cfg f (cursorAt i) i t pI cI b
      ⟨q.results, some (i + 1)⟩ (qualList cfg i q.results)
      (0 + (qualList cfg i q.results).length) (pI + 1 + q.results.length) b
      (i + 1) hc0 hp0 hf0 hpr rfl
    -- apply the induction hypothesis from boundary i+1
    have hih := ih (i + 1) f (t + (0 + (qualList cfg i q.results).length))
      (pI + 1 + q.results.length) (cI + 1)
      (procPair cfg b (t + (0 + (qualList cfg i q.results).length)) (i + 1) (some (i + 1))).2
      htake2
      (by simp only [List.length_cons] at hlt; omega)
      (by simp only [List.length_cons] at hfuel; omega)
      (fun k hk => by
        have h := hfetch (k + 1) (by simp only [List.length_cons]; omega)
        rwa [show i + (k + 1) = i + 1 + k from by omega] at h)
      (fun k hk => by
        have h := hcancel (k + 1) (by simp only [List.length_cons]; omega)
        rwa [show cI + (k + 1) = cI + 1 + k from by omega] at h)
      (fun n hn => by
        have hb : 1 + q.results.length + n < pagePolls (q :: rest) := by
          simp only [pagePolls, List.map_cons, List.sum_cons] at hn ⊢
          omega
        have h := hpause (1 + q.results.length + n) hb
        rwa [show pI + (1 + q.results.length + n) = pI + 1 + q.results.length + n from by
          omega] at h)
      (fun k page hk hle hlt2 d hdm =>
        hok k page hk (by omega) (by simp only [List.length_cons]; omega) d hdm)
    obtain ⟨b2, pre2, hrec⟩ := hih
    refine ⟨b2,
      (procPair cfg b (t + (0 + (qualList cfg i q.results).length)) (i + 1) (some (i + 1))).1 ++
        pre2, ?_⟩
    rw [cursorAt_succ] at hrec
    rw [hstep, hrec]
    -- reassociate the accumulated pieces
    have e1 : i + 1 + rest.length = i + (q :: rest).length := by
      simp only [List.length_cons]; omega
    have e2 : t + (0 + (qualList cfg i q.results).length) + (emitsFrom cfg rest (i + 1)).length =
        t + (emitsFrom cfg (q :: rest) i).length := by
      simp only [emitsFrom, List.length_append]
      omega
    have e3 : pI + 1 + q.results.length + pagePolls rest = pI + pagePolls (q :: rest) := by
      simp only [pagePolls, List.map_cons, List.sum_cons]
      omega
    have e4 : cI + 1 + rest.length = cI + (q :: rest).length := by
      simp only [List.length_cons]; omega
    have e5 : emitsFrom cfg (q :: rest) i =
        qualList cfg i q.results ++ emitsFrom cfg rest (i + 1) := rfl
    have e6 : (List.range' i (q :: rest).length).map cursorAt =
        cursorAt i :: (List.range' (i + 1) rest.length).map cursorAt := by
      rw [show (q :: rest).length = rest.length + 1 from by simp, List.range'_succ]
      simp
    have hf1 : f + 1 - (q :: rest).length = f - rest.length := by
      simp only [List.length_cons]; omega
    rw [e1, e2, e3, e4, e5, e6, hf1]
    simp [List.append_assoc]

/-- Running to completion: if the pages `l` are the whole remaining chain
from boundary `i`, the guards never fire, the fetch agrees with the chain
and every remaining record transforms, then the run emits exactly the
remaining qualifying records, ends `completed`, its last checkpoint is the
`completed` one with a null cursor and the final total, and
`total_records` ends at `t` plus the number of remaining qualifying
records. -/
lemma runLoop_complete (cfg : EngineConfig Nat) (ps : List Page)
    (hcb : cfg.hasCheckpointCb = true) (hcbR : cfg.cbRaises = falseSeq)
    (hcanc : cfg.cancelSeq = falseSeq) (hpse : cfg.pauseSeq = falseSeq) :
    ∀ (l : List Page) (i fuel t pI cI b : Nat),
      ps.drop i = l → l ≠ [] → l.length ≤ fuel →
      (∀ k, k < l.length → cfg.fetch (cursorAt (i + k)) = chainFetch ps (cursorAt (i + k))) →
      (∀ (k : Nat) (page : Page), ps[k]? = some page → i ≤ k →
        ∀ d ∈ page.results, transformOk cfg k d = true) →
      ∃ pre,
        (runLoop cfg fuel ⟨cursorAt i, i, t, pI, cI, b⟩).emitted = emitsFrom cfg l i ∧
        (runLoop cfg fuel ⟨cursorAt i, i, t, pI, cI, b⟩).checkpoints =
          pre ++ [⟨⟨.completed, t + (emitsFrom cfg l i).length, none, ps.length, 100⟩, true⟩] ∧
        (runLoop cfg fuel ⟨cursorAt i, i, t, pI, cI, b⟩).outcome = .completed ∧
        (runLoop cfg fuel ⟨cursorAt i, i, t, pI, cI, b⟩).final.total_records =
          t + (emitsFrom cfg l i).length := by
  intro l
  induction l with
  | nil => intro i fuel t pI cI b _ hne; exact absurd rfl hne
  | cons q rest ih =>
    intro i fuel t pI cI b hdrop _ hfuel hfetch hok
    have hpi : ps[i]? = some q := by
      rw [← List.head?_drop, hdrop]
      rfl
    have hdrop1 : ps.drop (i + 1) = rest := by
      rw [← List.tail_drop, hdrop]
      rfl
    have hlen : (ps.drop i).length = ps.length - i := by simp
    have hlen2 : ps.length = i + rest.length + 1 := by
      rw [hdrop] at hlen
      have : i < ps.length := by
        by_contra hcon
        have : ps.drop i = [] := List.drop_eq_nil_of_le (by omega)
        rw [hdrop] at this
        simp at this
      simp only [List.length_cons] at hlen
      omega
    obtain ⟨f, rfl⟩ : ∃ f, fuel = f + 1 := by
      refine ⟨fuel - 1, ?_⟩
      simp only [List.length_cons] at hfuel
      omega
    have hc0 : cfg.cancelSeq cI = false := by rw [hcanc]; rfl
    have hp0 : cfg.pauseSeq pI = false := by rw [hpse]; rfl
    have hprec : ∀ k, k < q.results.length → cfg.pauseSeq (pI + 1 + k) = false := by
      intro k _
      rw [hpse]; rfl
    have hokp : ∀ d ∈ q.results, transformOk cfg i d = true :=
      fun d hdm => hok i q hpi (Nat.le_refl i) d hdm
    have hpr : processRecords cfg (cursorAt i) i t q.results 0 (pI + 1) b =
        .done (qualList cfg i q.results) (0 + (qualList cfg i q.results).length)
          (pI + 1 + q.results.length) b :=
      processRecords_clean cfg (cursorAt i) i t q.results 0 (pI + 1) b hprec hokp
    cases rest with
    | nil =>
      -- q is the last page; the fetch returns no next cursor
      simp only [List.length_nil, Nat.add_zero] at hlen2
      have hnolast : ¬ i + 1 < ps.length := by omega
      have hf0 : cfg.fetch (cursorAt i) = .ok ⟨q.results, none⟩ := by
        have h := hfetch 0 (by simp)
        rw [Nat.add_zero] at h
        rw [h, chainFetch_at hpi, if_neg hnolast]
      have hstep := runLoop_final cfg f (cursorAt i) i t pI cI b
        ⟨q.results, none⟩ (qualList cfg i q.results)
        (0 + (qualList cfg i q.results).length) (pI + 1 + q.results.length) b
        hc0 hp0 hf0 hpr rfl
      refine ⟨(procPair cfg b (t + (0 + (qualList cfg i q.results).length)) (i + 1) none).1, ?_⟩
      rw [hstep]
      have hcp : (emitCp cfg
          (procPair cfg b (t + (0 + (qualList cfg i q.results).length)) (i + 1) none).2
          ⟨.completed, t + (0 + (qualList cfg i q.results).length), none, i + 1, 100⟩).1 =
          [⟨⟨.completed, t + (emitsFrom cfg [q] i).length, none, ps.length, 100⟩, true⟩] := by
        rw [emitCp, if_pos hcb, hcbR]
        have h1 : t + (0 + (qualList cfg i q.results).length) =
            t + (emitsFrom cfg [q] i).length := by
          simp [emitsFrom]
        have h2 : i + 1 = ps.length := by omega
        rw [h1, h2]
        rfl
      constructor
      · simp [emitsFrom]
      refine ⟨by rw [hcp], rfl, ?_⟩
      have : t + (0 + (qualList cfg i q.results).length) = t + (emitsFrom cfg [q] i).length := by
        simp [emitsFrom]
      simpa using this
    | cons r2 rest2 =>
      -- q has a successor page
      have hi1lt : i + 1 < ps.length := by
        simp only [List.length_cons] at hlen2
        omega
      have hf0 : cfg.fetch (cursorAt i) = .ok ⟨q.results, some (i + 1)⟩ := by
        have h := hfetch 0 (by simp)
        rw [Nat.add_zero] at h
        rw [h, chainFetch_at hpi, if_pos hi1lt]
      have hstep := runLoop_cont cfg f (cursorAt i) i t pI cI b
        ⟨q.results, some (i + 1)⟩ (qualList cfg i q.results)
        (0 + (qualList cfg i q.results).length) (pI + 1 + q.results.length) b
        (i + 1) hc0 hp0 hf0 hpr rfl
      have hih := ih (i + 1) f (t + (0 + (qualList cfg i q.results).length))
        (pI + 1 + q.results.length) (cI + 1)
        (procPair cfg b (t + (0 + (qualList cfg i q.results).length)) (i + 1) (some (i + 1))).2
        hdrop1 (by simp) (by simp only [List.length_cons] at hfuel ⊢; omega)
        (fun k hk => by
          have h := hfetch (k + 1) (by simp only [List.length_cons] at hk ⊢; omega)
          rwa [show i + (k + 1) = i + 1 + k from by omega] at h)
        (fun k page hk hle d hdm => hok k page hk (by omega) d hdm)
      obtain ⟨pre2, he, hcps, ho, ht⟩ := hih
      rw [cursorAt_succ] at he hcps ho ht
      refine ⟨(procPair cfg b (t + (0 + (qualList cfg i q.results).length)) (i + 1)
        (some (i + 1))).1 ++ pre2, ?_⟩
      rw [hstep]
      have hE : t + (0 + (qualList cfg i q.results).length) +
          (emitsFrom cfg (r2 :: rest2) (i + 1)).length =
          t + (emitsFrom cfg (q :: r2 :: rest2) i).length := by
        rw [show emitsFrom cfg (q :: r2 :: rest2) i =
          qualList cfg i q.results ++ emitsFrom cfg (r2 :: rest2) (i + 1) from rfl]
        simp only [List.length_append]
        omega
      refine ⟨?_, ?_, by simpa using ho, ?_⟩
      · simp only [RunResult.emitted]
        rw [he]
        rfl
      · simp only [RunResult.checkpoints]
        rw [hcps, hE, List.append_assoc]
      · simp only [RunResult.final]
        rw [ht, hE]

/-! ## Fuel bounds the number of fetches -/

/-- Each loop iteration performs at most one fetch, so a run with `fuel`
iterations left fetches at most `fuel` pages — whatever the fetch
function, guards and filters do. -/
lemma runLoop_fetched_le {σ : Type} (cfg : EngineConfig σ) :
    ∀ (fuel : Nat) (st : EngineState σ), (runLoop cfg fuel st).fetched.length ≤ fuel := by
  intro fuel
  induction fuel with
  | zero => intro st; simp [runLoop]
  | succ f ih =>
    intro st
    rw [runLoop]
    split
    · simp
    · split
      · simp
      · split
        · simp
        · split
          · simp
          · simp
          · split
            · simp only [List.length_cons]
              exact Nat.succ_le_succ (ih _)
            · simp

/-! ## The run is insensitive to checkpoint-callback failures -/

/-- The emissions of one guarded callback call do not depend on whether
the callback raises, except for the recorded `persisted` flag. -/
lemma emitCp_map_cbR {σ : Type} (cfg : EngineConfig σ) (f g : Nat → Bool) (b : Nat)
    (cp : Checkpoint σ) :
    ((emitCp { cfg with cbRaises := f } b cp).1).map (fun c => c.cp) =
      ((emitCp { cfg with cbRaises := g } b cp).1).map (fun c => c.cp) := by
  simp only [emitCp]
  cases cfg.hasCheckpointCb <;> simp

/-- The callback-invocation counter advances the same way whether or not
the callback raises. -/
lemma emitCp_idx_cbR {σ : Type} (cfg : EngineConfig σ) (f g : Nat → Bool) (b : Nat)
    (cp : Checkpoint σ) :
    (emitCp { cfg with cbRaises := f } b cp).2 = (emitCp { cfg with cbRaises := g } b cp).2 := by
  simp only [emitCp]
  cases cfg.hasCheckpointCb <;> simp

/-- The per-record loop is insensitive to checkpoint-callback failures:
either both runs pause mid-page with the same emissions and the same
checkpoint (up to the `persisted` flag), or they return identical
results. -/
lemma processRecords_cbR {σ : Type} (cfg : EngineConfig σ) (f g : Nat → Bool)
    (after : Option σ) (pc t : Nat) :
    ∀ (deals : List RawDeal) (pr pIdx b : Nat),
      (∃ em cps1 cps2,
        processRecords { cfg with cbRaises := f } after pc t deals pr pIdx b =
          .pausedMid em cps1 ∧
        processRecords { cfg with cbRaises := g } after pc t deals pr pIdx b =
          .pausedMid em cps2 ∧
        cps1.map (fun c => c.cp) = cps2.map (fun c => c.cp)) ∨
      processRecords { cfg with cbRaises := f } after pc t deals pr pIdx b =
        processRecords { cfg with cbRaises := g } after pc t deals pr pIdx b := by
  intro deals
  induction deals with
  | nil => intro pr pIdx b; right; rfl
  | cons deal rest ih =>
    intro pr pIdx b
    cases hp : cfg.pauseSeq pIdx with
    | true =>
      left
      refine ⟨[],
        (emitCp { cfg with cbRaises := f } b ⟨.paused_mid_page, t + pr, after, pc, 100⟩).1,
        (emitCp { cfg with cbRaises := g } b ⟨.paused_mid_page, t + pr, after, pc, 100⟩).1,
        ?_, ?_, ?_⟩
      · rw [processRecords]
        simp [hp]
      · rw [processRecords]
        simp [hp]
      · exact emitCp_map_cbR cfg f g b _
    | false =>
      cases htr : transform_hubspot_deal deal cfg.scan_id cfg.tenant_id (pc + 1) with
      | error e =>
        right
        rw [processRecords, processRecords]
        simp [hp, htr]
      | ok td =>
        cases hf : (rejectsAllow cfg.deal_stages td.deal_stage ||
            rejectsAllow cfg.pipelines td.pipeline) with
        | true =>
          rcases ih pr (pIdx + 1) b with ⟨em, cps1, cps2, h1, h2, hmap⟩ | heq
          · left
            refine ⟨em, cps1, cps2, ?_, ?_, hmap⟩
            · rw [processRecords]
              simp only [hp, Bool.false_eq_true, if_false, htr, hf, if_true]
              exact h1
            · rw [processRecords]
              simp only [hp, Bool.false_eq_true, if_false, htr, hf, if_true]
              exact h2
          · right
            rw [processRecords, processRecords]
            simp only [hp, Bool.false_eq_true, if_false, htr, hf, if_true]
            exact heq
        | false =>
          rcases ih (pr + 1) (pIdx + 1) b with ⟨em, cps1, cps2, h1, h2, hmap⟩ | heq
          · left
            refine ⟨td :: em, cps1, cps2, ?_, ?_, hmap⟩
            · rw [processRecords]
              simp only [hp, Bool.false_eq_true, if_false, htr, hf]
              rw [h1]
            · rw [processRecords]
              simp only [hp, Bool.false_eq_true, if_false, htr, hf]
              rw [h2]
          · right
            rw [processRecords, processRecords]
            simp only [hp, Bool.false_eq_true, if_false, htr, hf]
            rw [heq]

/-- A whole run is insensitive to checkpoint-callback failures: whatever
the two failure streams are, the emitted records, the checkpoints passed
to the callback (up to the `persisted` flag), the fetched cursors, the
outcome and the final state coincide. -/
lemma runLoop_cbR {σ : Type} (cfg : EngineConfig σ) (f g : Nat → Bool) :
    ∀ (fuel : Nat) (st : EngineState σ),
      (runLoop { cfg with cbRaises := f } fuel st).emitted =
        (runLoop { cfg with cbRaises := g } fuel st).emitted ∧
      (runLoop { cfg with cbRaises := f } fuel st).checkpoints.map (fun c => c.cp) =
        (runLoop { cfg with cbRaises := g } fuel st).checkpoints.map (fun c => c.cp) ∧
      (runLoop { cfg with cbRaises := f } fuel st).fetched =
        (runLoop { cfg with cbRaises := g } fuel st).fetched ∧
      (runLoop { cfg with cbRaises := f } fuel st).outcome =
        (runLoop { cfg with cbRaises := g } fuel st).outcome ∧
      (runLoop { cfg with cbRaises := f } fuel st).final =
        (runLoop { cfg with cbRaises := g } fuel st).final := by
  intro fuel
  induction fuel with
  | zero => intro st; exact ⟨rfl, rfl, rfl, rfl, rfl⟩
  | succ fu ih =>
    intro st
    rw [runLoop, runLoop]
    cases hc : cfg.cancelSeq st.cancelIdx with
    | true =>
      refine ⟨by simp [hc], ?_, by simp [hc], by simp [hc], ?_⟩
      · simp only [hc, if_true]
        exact emitCp_map_cbR cfg f g _ _
      · simp only [hc, if_true]
        rw [emitCp_idx_cbR cfg f g]
    | false =>
      simp only [hc, Bool.false_eq_true, if_false]
      cases hp : cfg.pauseSeq st.pauseIdx with
      | true =>
        refine ⟨by simp [hp], ?_, by simp [hp], by simp [hp], ?_⟩
        · simp only [hp, if_true]
          exact emitCp_map_cbR cfg f g _ _
        · simp only [hp, if_true]
          rw [emitCp_idx_cbR cfg f g]
      | false =>
        simp only [hp, Bool.false_eq_true, if_false]
        cases hf : cfg.fetch st.after with
        | error e =>
          refine ⟨by simp [hf], ?_, by simp [hf], by simp [hf], ?_⟩
          · simp only [hf]
            exact emitCp_map_cbR cfg f g _ _
          · simp only [hf]
            rw [emitCp_idx_cbR cfg f g]
        | ok data =>
          simp only [hf]
          rcases processRecords_cbR cfg f g st.after st.page_count st.total_records
              data.results 0 (st.pauseIdx + 1) st.cbIdx with
            ⟨em, cps1, cps2, h1, h2, hmap⟩ | heq
          · rw [h1, h2]
            exact ⟨rfl, hmap, rfl, rfl, rfl⟩

          · rw [heq]
            cases hres : processRecords { cfg with cbRaises := g } st.after st.page_count
                st.total_records data.results 0 (st.pauseIdx + 1) st.cbIdx with
            | pausedMid em cps => exact ⟨rfl, rfl, rfl, rfl, rfl⟩
            | errored em e =>
              exact ⟨rfl, emitCp_map_cbR cfg f g _ _, rfl, rfl, by
                rw [emitCp_idx_cbR cfg f g]⟩
            | done em pr pIdx2 b2 =>
              have hidx : (if (st.page_count + 1) % 5 = 0 then
                  emitCp { cfg with cbRaises := f } b2
                    ⟨.processing, st.total_records + pr, data.next, st.page_count + 1, 100⟩
                else ([], b2)).2 =
                  (if (st.page_count + 1) % 5 = 0 then
                  emitCp { cfg with cbRaises := g } b2
                    ⟨.processing, st.total_records + pr, data.next, st.page_count + 1, 100⟩
                else ([], b2)).2 := by
                split
                · exact emitCp_idx_cbR cfg f g _ _
                · rfl
              have hmap2 : ((if (st.page_count + 1) % 5 = 0 then
                  emitCp { cfg with cbRaises := f } b2
                    ⟨.processing, st.total_records + pr, data.next, st.page_count + 1, 100⟩
                else ([], b2)).1).map (fun c => c.cp) =
                  ((if (st.page_count + 1) % 5 = 0 then
                  emitCp { cfg with cbRaises := g } b2
                    ⟨.processing, st.total_records + pr, data.next, st.page_count + 1, 100⟩
                else ([], b2)).1).map (fun c => c.cp) := by
                split
                · exact emitCp_map_cbR cfg f g _ _
                · rfl
              cases hnext : data.next with
              | some nxt =>
                simp only [hnext] at hidx hmap2 ⊢
                rw [hidx]
                obtain ⟨ihe, ihc, ihf, iho, ihfin⟩ := ih ⟨some nxt, st.page_count + 1,
                  st.total_records + pr, pIdx2, st.cancelIdx + 1,
                  (if (st.page_count + 1) % 5 = 0 then
                    emitCp { cfg with cbRaises := g } b2
                      ⟨.processing, st.total_records + pr, some nxt, st.page_count + 1, 100⟩
                  else ([], b2)).2⟩
                refine ⟨by rw [ihe], ?_, by rw [ihf], iho, ihfin⟩
                simp only [List.map_append]
                rw [hmap2, ihc]
              | none =>
                simp only [hnext] at hidx hmap2 ⊢
                refine ⟨by trivial, ?_, by trivial, by trivial, ?_⟩
                · simp only [List.map_append]
                  rw [hmap2, hidx, emitCp_map_cbR cfg f g]
                · rw [hidx, emitCp_idx_cbR cfg f g]

/-! ## Decidable side conditions for chains -/

/-- Every record of every page of `l` (whose first page sits at chain
position `i`) transforms successfully. -/
def pagesOkFrom (cfg : EngineConfig Nat) : List Page → Nat → Bool
  | [], _ => true
  | p :: rest, k => p.results.all (fun d => transformOk cfg k d) && pagesOkFrom cfg rest (k + 1)

lemma pagesOkFrom_spec (cfg : EngineConfig Nat) :
    ∀ (l : List Page) (i : Nat), pagesOkFrom cfg l i = true →
      ∀ (k : Nat) (page : Page), l[k]? = some page →
        ∀ d ∈ page.results, transformOk cfg (i + k) d = true := by
  intro l
  induction l with
  | nil => intro i _ k page hk; simp at hk
  | cons p rest ih =>
    intro i h k page hk d hd
    simp only [pagesOkFrom, Bool.and_eq_true, List.all_eq_true] at h
    cases k with
    | zero =>
      simp only [List.getElem?_cons_zero, Option.some.injEq] at hk
      subst hk
      rw [Nat.add_zero]
      exact h.1 d hd
    | succ k =>
      simp only [List.getElem?_cons_succ] at hk
      have h3 := ih (i + 1) h.2 k page hk d hd
      rwa [show i + 1 + k = i + (k + 1) from by omega] at h3

lemma pagesOk_drop (cfg : EngineConfig Nat) (ps : List Page) (i : Nat)
    (h : pagesOkFrom cfg (ps.drop i) i = true) :
    ∀ (k : Nat) (page : Page), ps[k]? = some page → i ≤ k →
      ∀ d ∈ page.results, transformOk cfg k d = true := by
  intro k page hk hik d hd
  have h2 : (ps.drop i)[k - i]? = some page := by
    rw [List.getElem?_drop]
    rwa [show i + (k - i) = k from by omega]
  have h3 := pagesOkFrom_spec cfg (ps.drop i) i h (k - i) page h2 d hd
  rwa [show i + (k - i) = k from by omega] at h3

lemma pagesOk_take (cfg : EngineConfig Nat) (ps : List Page) (p : Nat)
    (h : pagesOkFrom cfg (ps.take p) 0 = true) :
    ∀ (k : Nat) (page : Page), ps[k]? = some page → k < p →
      ∀ d ∈ page.results, transformOk cfg k d = true := by
  intro k page hk hkp d hd
  have h2 : (ps.take p)[k]? = some page := by
    rw [List.getElem?_take_of_lt hkp]
    exact hk
  have h3 := pagesOkFrom_spec cfg (ps.take p) 0 h k page h2 d hd
  rwa [Nat.zero_add] at h3

lemma lt_length_of_getElem? {ps : List Page} {p : Nat} {page : Page}
    (h : ps[p]? = some page) : p < ps.length := by
  by_contra hc
  rw [List.getElem?_eq_none (by omega)] at h
  simp at h

/-! ## Claim theorems -/

/-- C9: every extraction run fetches at most 1000 pages — whatever cursors
the API returns (including a never-ending cursor chain), the main loop
performs at most 1000 page iterations, and a run seeded from a resume
checkpoint is bounded by the same 1000-page ceiling (its loop guard is
`page_count < 1000` with the seeded `page_count`). -/
theorem C9_page_ceiling {σ : Type} (cfg : EngineConfig σ) (st : EngineState σ) :
    (run cfg st).fetched.length ≤ 1000 :=
  le_trans (runLoop_fetched_le cfg (1000 - st.page_count) st) (Nat.sub_le 1000 st.page_count)

/-- C8: a raising checkpoint callback is swallowed at every emission site:
for any two failure behaviours of the callback, the run emits the same
records, attempts the same checkpoints (only the persisted flag differs),
fetches the same pages, and ends with the same outcome and final state. -/
theorem C8_checkpoint_failures_harmless {σ : Type} (cfg : EngineConfig σ)
    (f g : Nat → Bool) (st : EngineState σ) :
    (run { cfg with cbRaises := f } st).emitted = (run { cfg with cbRaises := g } st).emitted ∧
    (run { cfg with cbRaises := f } st).checkpoints.map (fun c => c.cp) =
      (run { cfg with cbRaises := g } st).checkpoints.map (fun c => c.cp) ∧
    (run { cfg with cbRaises := f } st).fetched = (run { cfg with cbRaises := g } st).fetched ∧
    (run { cfg with cbRaises := f } st).outcome = (run { cfg with cbRaises := g } st).outcome ∧
    (run { cfg with cbRaises := f } st).final = (run { cfg with cbRaises := g } st).final :=
  runLoop_cbR cfg f g (1000 - st.page_count) st

lemma chainCfg_fetch (ps : List Page) (cS pS cbR : Nat → Bool)
    (ds pl : Option (List String)) :
    (chainCfg ps cS pS cbR ds pl).fetch = chainFetch ps := rfl

/-- C1 (amended): for every page chain `c0 -> ... -> cn -> None` of at
most 1000 pages (the per-run safety ceiling) none of whose records makes
the transformation raise, a run in which the pause and cancel guards are
always false and no fetch fails emits exactly the qualifying (post-filter)
records of every page, in page order and within each page in array order,
ends COMPLETED, and its last checkpoint is a `completed` one with a null
cursor carrying the total emitted count. -/
theorem C1_full_run (ps : List Page) (ds pl : Option (List String))
    (h1000 : ps.length ≤ 1000)
    (hok : pagesOkFrom (chainCfg ps falseSeq falseSeq falseSeq ds pl) ps 0 = true) :
    (run (chainCfg ps falseSeq falseSeq falseSeq ds pl) initState).emitted =
      emitsFrom (chainCfg ps falseSeq falseSeq falseSeq ds pl) ps 0 ∧
    (run (chainCfg ps falseSeq falseSeq falseSeq ds pl) initState).outcome = .completed ∧
    ∃ c, (run (chainCfg ps falseSeq falseSeq falseSeq ds pl) initState).checkpoints.getLast? =
        some c ∧
      c.cp.phase = .completed ∧ c.cp.cursor = none ∧
      c.cp.records_processed =
        (emitsFrom (chainCfg ps falseSeq falseSeq falseSeq ds pl) ps 0).length ∧
      c.persisted = true := by
  rcases ps with _ | ⟨q, qs⟩
  · -- an empty chain: one fetch returns an empty page with no next cursor
    have hrun : run (chainCfg [] falseSeq falseSeq falseSeq ds pl) initState =
        ⟨[], [⟨⟨.completed, 0, none, 1, 100⟩, true⟩], [none], .completed,
          ⟨none, 1, 0, 1, 1, 1⟩⟩ := by
      show runLoop (chainCfg [] falseSeq falseSeq falseSeq ds pl) (999 + 1)
        ⟨none, 0, 0, 0, 0, 0⟩ = _
      rw [runLoop_final (chainCfg [] falseSeq falseSeq falseSeq ds pl) 999 none 0 0 0 0 0
        ⟨[], none⟩ [] 0 1 0 (by rfl) (by rfl) (by rfl) (by rfl) (by rfl)]
      simp [procPair, emitCp, chainCfg, falseSeq]
    rw [hrun]
    exact ⟨rfl, rfl, ⟨⟨⟨.completed, 0, none, 1, 100⟩, true⟩, rfl, rfl, rfl, rfl, rfl⟩⟩
  · have hr : run (chainCfg (q :: qs) falseSeq falseSeq falseSeq ds pl) initState =
        runLoop (chainCfg (q :: qs) falseSeq falseSeq falseSeq ds pl) 1000
          ⟨cursorAt 0, 0, 0, 0, 0, 0⟩ := rfl
    obtain ⟨pre, he, hcps, ho, _⟩ :=
      runLoop_complete (chainCfg (q :: qs) falseSeq falseSeq falseSeq ds pl) (q :: qs)
        rfl rfl rfl rfl (q :: qs) 0 1000 0 0 0 0 (List.drop_zero _) (by simp)
        (by simpa using h1000) (fun k _ => rfl)
        (pagesOk_drop (chainCfg (q :: qs) falseSeq falseSeq falseSeq ds pl) (q :: qs) 0 hok)
    rw [hr]
    refine ⟨he, ho, ⟨⟨⟨.completed,
      0 + (emitsFrom (chainCfg (q :: qs) falseSeq falseSeq falseSeq ds pl) (q :: qs) 0).length,
      none, (q :: qs).length, 100⟩, true⟩, ?_, rfl, rfl, by simp, rfl⟩⟩
    rw [hcps]
    exact List.getLast?_concat pre

/-- C1 counterexample: on a chain of 1001 pages the run stops at the
1000-page safety ceiling without ending COMPLETED, contradicting the
claim for every number of pages. -/
theorem C1_counterexample :
    (run (chainCfg (List.replicate 1001 (⟨[]⟩ : Page)) falseSeq falseSeq falseSeq none none)
      initState).outcome = .limitReached ∧
    ¬ (run (chainCfg (List.replicate 1001 (⟨[]⟩ : Page)) falseSeq falseSeq falseSeq none none)
      initState).outcome = .completed := by
  obtain ⟨b2, pre, heq⟩ :=
    runLoop_advance
      (chainCfg (List.replicate 1001 (⟨[]⟩ : Page)) falseSeq falseSeq falseSeq none none)
      (List.replicate 1001 (⟨[]⟩ : Page)) (List.replicate 1000 (⟨[]⟩ : Page))
      0 1000 0 0 0 0
      (by rw [List.drop_zero, List.length_replicate, List.take_replicate,
        Nat.min_eq_left (by norm_num)])
      (by rw [List.length_replicate, List.length_replicate]; norm_num)
      (by rw [List.length_replicate])
      (fun k _ => congrFun (chainCfg_fetch _ _ _ _ _ _) _) (fun k _ => rfl) (fun n _ => rfl)
      (fun k page hk _ _ d hd => by
        have hpage : page = ⟨[]⟩ := List.eq_of_mem_replicate (List.getElem?_mem hk)
        rw [hpage] at hd
        simp at hd)
  have hr : run (chainCfg (List.replicate 1001 (⟨[]⟩ : Page)) falseSeq falseSeq falseSeq
      none none) initState =
      runLoop (chainCfg (List.replicate 1001 (⟨[]⟩ : Page)) falseSeq falseSeq falseSeq
        none none) 1000 ⟨cursorAt 0, 0, 0, 0, 0, 0⟩ := rfl
  have houtcome : (run (chainCfg (List.replicate 1001 (⟨[]⟩ : Page)) falseSeq falseSeq
      falseSeq none none) initState).outcome = .limitReached := by
    rw [hr, heq, List.length_replicate, Nat.sub_self]
    exact rfl
  refine ⟨houtcome, fun hcon => ?_⟩
  rw [houtcome] at hcon
  exact RunOutcome.noConfusion hcon

/-- A plain raw deal whose transformation always succeeds. -/
def sampleDeal (n : String) : RawDeal := ⟨some n, [("dealname", n)], false⟩

/-- A two-page chain used by witnesses. -/
def psW : List Page := [⟨[sampleDeal "a", sampleDeal "b"]⟩, ⟨[sampleDeal "c"]⟩]

/-- A five-page chain with one qualifying deal per page. -/
def ps5c : List Page :=
  [⟨[sampleDeal "a"]⟩, ⟨[sampleDeal "b"]⟩, ⟨[sampleDeal "c"]⟩, ⟨[sampleDeal "d"]⟩,
   ⟨[sampleDeal "e"]⟩]

/-- C1 witness: the amended claim at a concrete two-page chain. -/
theorem C1_witness :
    (run (chainCfg psW falseSeq falseSeq falseSeq none none) initState).emitted =
      emitsFrom (chainCfg psW falseSeq falseSeq falseSeq none none) psW 0 ∧
    (run (chainCfg psW falseSeq falseSeq falseSeq none none) initState).outcome = .completed ∧
    ∃ c, (run (chainCfg psW falseSeq falseSeq falseSeq none none)
        initState).checkpoints.getLast? = some c ∧
      c.cp.phase = .completed ∧ c.cp.cursor = none ∧
      c.cp.records_processed =
        (emitsFrom (chainCfg psW falseSeq falseSeq falseSeq none none) psW 0).length ∧
      c.persisted = true :=
  C1_full_run psW none none (by decide) (by decide)

/-- C2 (amended): resuming from a `processing` checkpoint whose cursor is
non-null — `{cursor := ck, page_number := k, records_processed := r0}`
with `ck` the cursor of the first unprocessed page `k` — and running to
completion (guards false, remaining records transform, chain within the
1000-page ceiling) yields exactly the qualifying records of pages `k`
onward, and a final `records_processed` of `r0` plus their number: no
record is double-counted or skipped across the resume boundary. -/
theorem C2_resume_no_loss (ps : List Page) (ds pl : Option (List String)) (k r0 : Nat)
    (h1000 : ps.length ≤ 1000) (hk1 : 1 ≤ k) (hk : k < ps.length)
    (hok : pagesOkFrom (chainCfg ps falseSeq falseSeq falseSeq ds pl) (ps.drop k) k = true) :
    (run (chainCfg ps falseSeq falseSeq falseSeq ds pl)
      (resumeState (some k) k r0)).outcome = .completed ∧
    (run (chainCfg ps falseSeq falseSeq falseSeq ds pl)
      (resumeState (some k) k r0)).final.total_records =
      r0 + (emitsFrom (chainCfg ps falseSeq falseSeq falseSeq ds pl) (ps.drop k) k).length ∧
    (run (chainCfg ps falseSeq falseSeq falseSeq ds pl)
      (resumeState (some k) k r0)).emitted =
      emitsFrom (chainCfg ps falseSeq falseSeq falseSeq ds pl) (ps.drop k) k := by
  have hne : ps.drop k ≠ [] := by
    rw [ne_eq, List.drop_eq_nil_iff]
    omega
  have hcur : cursorAt k = some k := by
    unfold cursorAt
    rw [if_neg (by omega)]
  have hr : run (chainCfg ps falseSeq falseSeq falseSeq ds pl) (resumeState (some k) k r0) =
      runLoop (chainCfg ps falseSeq falseSeq falseSeq ds pl) (1000 - k)
        ⟨some k, k, r0, 0, 0, 0⟩ := rfl
  obtain ⟨pre, he, hcps, ho, ht⟩ :=
    runLoop_complete (chainCfg ps falseSeq falseSeq falseSeq ds pl) ps
      rfl rfl rfl rfl (ps.drop k) k (1000 - k) r0 0 0 0 rfl hne
      (by rw [List.length_drop]; omega) (fun kk _ => rfl)
      (pagesOk_drop (chainCfg ps falseSeq falseSeq falseSeq ds pl) ps k hok)
  rw [hcur] at he hcps ho ht
  rw [hr]
  exact ⟨ho, ht, he⟩

/-- C2 witness: the amended claim at a concrete five-page chain, resuming
from the boundary of page 1 with a previously accumulated count of 7. -/
theorem C2_witness :
    (run (chainCfg ps5c falseSeq falseSeq falseSeq none none)
      (resumeState (some 1) 1 7)).outcome = .completed ∧
    (run (chainCfg ps5c falseSeq falseSeq falseSeq none none)
      (resumeState (some 1) 1 7)).final.total_records =
      7 + (emitsFrom (chainCfg ps5c falseSeq falseSeq falseSeq none none)
        (ps5c.drop 1) 1).length ∧
    (run (chainCfg ps5c falseSeq falseSeq falseSeq none none)
      (resumeState (some 1) 1 7)).emitted =
      emitsFrom (chainCfg ps5c falseSeq falseSeq falseSeq none none) (ps5c.drop 1) 1 :=
  C2_resume_no_loss ps5c none none 1 7 (by decide) (by decide) (by decide) (by decide)

/-- C2 counterexample: a fresh full run over a five-page chain emits the
`processing` checkpoint `{cursor := null, page_number := 5,
records_processed := 5}` (the periodic checkpoint of the final page
carries a null next-cursor); seeding `resume_from` with exactly that
state re-fetches the whole chain, ending with `records_processed = 10`,
not `5 + 0` — every record is double-counted. -/
theorem C2_counterexample :
    (⟨.processing, 5, none, 5, 100⟩ : Checkpoint Nat) ∈
      ((run (chainCfg ps5c falseSeq falseSeq falseSeq none none) initState).checkpoints.map
        (fun c => c.cp)) ∧
    (run (chainCfg ps5c falseSeq falseSeq falseSeq none none)
      (resumeState none 5 5)).final.total_records = 10 ∧
    ¬ (run (chainCfg ps5c falseSeq falseSeq falseSeq none none)
      (resumeState none 5 5)).final.total_records = 5 := by
  decide

/-- Run configuration whose pause guard first answers true at its `T`-th
evaluation (and stays true), with cancellation never requested. -/
def pauseCfg (ps : List Page) (ds pl : Option (List String)) (T : Nat) : EngineConfig Nat :=
  chainCfg ps falseSeq (fun n => decide (T ≤ n)) falseSeq ds pl

/-- C3: if the pause guard first answers true at the per-record check
before record `j` of page `p` (poll number `pollCount ps p + 1 + j`: one
boundary check per earlier page, one check per earlier record, the
boundary check of page `p`, and `j` record checks), the run stops
immediately: it has emitted the pages before `p` and then only the
qualifying records among the first `j` of page `p`, and its last
checkpoint is `paused_mid_page` with `records_processed` = (total through
page `p-1`) + (qualifying emitted in page `p`) and the cursor of page `p`
itself, unchanged — so a resume re-fetches page `p`.  `j = 0` is allowed:
the guard is re-evaluated before each record including the first. -/
theorem C3_mid_page_pause (ps : List Page) (ds pl : Option (List String)) (p j : Nat)
    (page : Page) (hpage : ps[p]? = some page) (hj : j < page.results.length)
    (hp1000 : p < 1000)
    (hokpre : pagesOkFrom (pauseCfg ps ds pl (pollCount ps p + 1 + j)) (ps.take p) 0 = true)
    (hokj : (page.results.take j).all
      (fun d => transformOk (pauseCfg ps ds pl (pollCount ps p + 1 + j)) p d) = true) :
    (run (pauseCfg ps ds pl (pollCount ps p + 1 + j)) initState).outcome = .pausedMidPage ∧
    (run (pauseCfg ps ds pl (pollCount ps p + 1 + j)) initState).emitted =
      emitsFrom (pauseCfg ps ds pl (pollCount ps p + 1 + j)) (ps.take p) 0 ++
        qualList (pauseCfg ps ds pl (pollCount ps p + 1 + j)) p (page.results.take j) ∧
    (run (pauseCfg ps ds pl (pollCount ps p + 1 + j)) initState).checkpoints.getLast? =
      some ⟨⟨.paused_mid_page,
        (emitsFrom (pauseCfg ps ds pl (pollCount ps p + 1 + j)) (ps.take p) 0).length +
          (qualList (pauseCfg ps ds pl (pollCount ps p + 1 + j)) p
            (page.results.take j)).length,
        cursorAt p, p, 100⟩, true⟩ := by
  have hplt : p < ps.length := lt_length_of_getElem? hpage
  have htakelen : (ps.take p).length = p := by
    rw [List.length_take]
    omega
  obtain ⟨b2, pre, heq⟩ :=
    runLoop_advance (pauseCfg ps ds pl (pollCount ps p + 1 + j)) ps (ps.take p) 0 1000
      0 0 0 0
      (by rw [List.drop_zero, htakelen])
      (by rw [htakelen]; omega)
      (by rw [htakelen]; omega)
      (fun k _ => rfl)
      (fun k _ => rfl)
      (fun n hn => by
        rw [← pollCount_eq] at hn
        show decide (pollCount ps p + 1 + j ≤ 0 + n) = false
        exact decide_eq_false (by omega))
      (fun k pg hk _ hlt2 d hd =>
        pagesOk_take (pauseCfg ps ds pl (pollCount ps p + 1 + j)) ps p hokpre k pg hk
          (by rw [htakelen] at hlt2; omega) d hd)
  rw [htakelen, ← pollCount_eq ps p] at heq
  simp only [Nat.zero_add] at heq
  obtain ⟨f, hfe⟩ : ∃ f, 1000 - p = f + 1 := ⟨1000 - p - 1, by omega⟩
  rw [hfe] at heq
  have hfetchp : (pauseCfg ps ds pl (pollCount ps p + 1 + j)).fetch (cursorAt p) =
      .ok ⟨page.results, if p + 1 < ps.length then some (p + 1) else none⟩ :=
    chainFetch_at hpage
  have hfalse : ∀ k, k < j →
      (pauseCfg ps ds pl (pollCount ps p + 1 + j)).pauseSeq (pollCount ps p + 1 + k) =
        false := by
    intro k hk
    show decide (pollCount ps p + 1 + j ≤ pollCount ps p + 1 + k) = false
    exact decide_eq_false (by omega)
  have htrue : (pauseCfg ps ds pl (pollCount ps p + 1 + j)).pauseSeq
      (pollCount ps p + 1 + j) = true := by
    show decide (pollCount ps p + 1 + j ≤ pollCount ps p + 1 + j) = true
    exact decide_eq_true (Nat.le_refl _)
  have hokj2 : ∀ d ∈ page.results.take j,
      transformOk (pauseCfg ps ds pl (pollCount ps p + 1 + j)) p d = true := by
    rw [List.all_eq_true] at hokj
    exact hokj
  have hpr := processRecords_pausedAt (pauseCfg ps ds pl (pollCount ps p + 1 + j))
    (cursorAt p) p
    (emitsFrom (pauseCfg ps ds pl (pollCount ps p + 1 + j)) (ps.take p) 0).length
    page.results j 0 (pollCount ps p + 1) b2 hj hfalse htrue hokj2
  have hmid := runLoop_midPause (pauseCfg ps ds pl (pollCount ps p + 1 + j)) f
    (cursorAt p) p
    (emitsFrom (pauseCfg ps ds pl (pollCount ps p + 1 + j)) (ps.take p) 0).length
    (pollCount ps p) p b2
    ⟨page.results, if p + 1 < ps.length then some (p + 1) else none⟩
    (qualList (pauseCfg ps ds pl (pollCount ps p + 1 + j)) p (page.results.take j))
    (emitCp (pauseCfg ps ds pl (pollCount ps p + 1 + j)) b2 ⟨.paused_mid_page,
      (emitsFrom (pauseCfg ps ds pl (pollCount ps p + 1 + j)) (ps.take p) 0).length +
        (0 + (qualList (pauseCfg ps ds pl (pollCount ps p + 1 + j)) p
          (page.results.take j)).length),
      cursorAt p, p, 100⟩).1
    rfl
    (by
      show decide (pollCount ps p + 1 + j ≤ pollCount ps p) = false
      exact decide_eq_false (by omega))
    hfetchp hpr
  rw [hmid] at heq
  have hcp : (emitCp (pauseCfg ps ds pl (pollCount ps p + 1 + j)) b2 ⟨.paused_mid_page,
      (emitsFrom (pauseCfg ps ds pl (pollCount ps p + 1 + j)) (ps.take p) 0).length +
        (0 + (qualList (pauseCfg ps ds pl (pollCount ps p + 1 + j)) p
          (page.results.take j)).length),
      cursorAt p, p, 100⟩).1 =
      [⟨⟨.paused_mid_page,
        (emitsFrom (pauseCfg ps ds pl (pollCount ps p + 1 + j)) (ps.take p) 0).length +
          (qualList (pauseCfg ps ds pl (pollCount ps p + 1 + j)) p
            (page.results.take j)).length,
        cursorAt p, p, 100⟩, true⟩] := by
    rw [Nat.zero_add]
    rfl
  rw [hcp] at heq
  have hr : run (pauseCfg ps ds pl (pollCount ps p + 1 + j)) initState =
      runLoop (pauseCfg ps ds pl (pollCount ps p + 1 + j)) 1000
        ⟨cursorAt 0, 0, 0, 0, 0, 0⟩ := rfl
  rw [hr, heq]
  exact ⟨rfl, rfl, List.getLast?_concat pre⟩

/-- Run configuration whose cancel guard first answers true at its `p`-th
evaluation (i.e. at the page boundary before page `p`), with an arbitrary
pause guard. -/
def cancelCfg (ps : List Page) (ds pl : Option (List String)) (p : Nat)
    (pSeq : Nat → Bool) : EngineConfig Nat :=
  chainCfg ps (fun n => decide (p ≤ n)) pSeq falseSeq ds pl

/-- C4: if the cancel guard answers true at the page-boundary check before
page `p` — whatever the pause guard answers there or later — the engine
emits a `cancelled` checkpoint whose `records_processed` is the total from
pages before `p` and whose cursor is page `p`'s cursor, and stops; no
record of page `p` or later is emitted and page `p` is never fetched.
The cancel check precedes the pause check at the boundary. -/
theorem C4_cancel_before_page (ps : List Page) (ds pl : Option (List String)) (p : Nat)
    (pSeq : Nat → Bool) (hplt : p < ps.length) (hp1000 : p < 1000)
    (hpse : ∀ n, n < pollCount ps p → pSeq n = false)
    (hok : pagesOkFrom (cancelCfg ps ds pl p pSeq) (ps.take p) 0 = true) :
    (run (cancelCfg ps ds pl p pSeq) initState).outcome = .cancelled ∧
    (run (cancelCfg ps ds pl p pSeq) initState).emitted =
      emitsFrom (cancelCfg ps ds pl p pSeq) (ps.take p) 0 ∧
    (run (cancelCfg ps ds pl p pSeq) initState).fetched =
      (List.range' 0 p).map cursorAt ∧
    cursorAt p ∉ (run (cancelCfg ps ds pl p pSeq) initState).fetched ∧
    (run (cancelCfg ps ds pl p pSeq) initState).checkpoints.getLast? =
      some ⟨⟨.cancelled, (emitsFrom (cancelCfg ps ds pl p pSeq) (ps.take p) 0).length,
        cursorAt p, p, 100⟩, true⟩ := by
  have htakelen : (ps.take p).length = p := by
    rw [List.length_take]
    omega
  obtain ⟨b2, pre, heq⟩ :=
    runLoop_advance (cancelCfg ps ds pl p pSeq) ps (ps.take p) 0 1000 0 0 0 0
      (by rw [List.drop_zero, htakelen])
      (by rw [htakelen]; omega)
      (by rw [htakelen]; omega)
      (fun k _ => rfl)
      (fun k hk => by
        rw [htakelen] at hk
        show decide (p ≤ 0 + k) = false
        exact decide_eq_false (by omega))
      (fun n hn => by
        rw [← pollCount_eq] at hn
        show pSeq (0 + n) = false
        rw [Nat.zero_add]
        exact hpse n hn)
      (fun k pg hk _ hlt2 d hd =>
        pagesOk_take (cancelCfg ps ds pl p pSeq) ps p hok k pg hk
          (by rw [htakelen] at hlt2; omega) d hd)
  rw [htakelen, ← pollCount_eq ps p] at heq
  simp only [Nat.zero_add] at heq
  obtain ⟨f, hfe⟩ : ∃ f, 1000 - p = f + 1 := ⟨1000 - p - 1, by omega⟩
  rw [hfe] at heq
  have hcancel := runLoop_cancel (cancelCfg ps ds pl p pSeq) f (cursorAt p) p
    (emitsFrom (cancelCfg ps ds pl p pSeq) (ps.take p) 0).length
    (pollCount ps p) p b2
    (by
      show decide (p ≤ p) = true
      exact decide_eq_true (Nat.le_refl _))
  rw [hcancel] at heq
  have hcp : (emitCp (cancelCfg ps ds pl p pSeq) b2 ⟨.cancelled,
      (emitsFrom (cancelCfg ps ds pl p pSeq) (ps.take p) 0).length,
      cursorAt p, p, 100⟩).1 =
      [⟨⟨.cancelled, (emitsFrom (cancelCfg ps ds pl p pSeq) (ps.take p) 0).length,
        cursorAt p, p, 100⟩, true⟩] := rfl
  rw [hcp] at heq
  have hr : run (cancelCfg ps ds pl p pSeq) initState =
      runLoop (cancelCfg ps ds pl p pSeq) 1000 ⟨cursorAt 0, 0, 0, 0, 0, 0⟩ := rfl
  rw [hr, heq]
  refine ⟨rfl, by simp, by simp, ?_, ?_⟩
  · intro hmem
    simp only [List.append_nil, List.mem_map, List.mem_range'_1] at hmem
    obtain ⟨i, ⟨_, hilt⟩, hieq⟩ := hmem
    have := cursorAt_inj hieq
    omega
  · simp only [List.append_nil]
    exact List.getLast?_concat pre

/-- C3 witness: pause first requested at the check before the first
record of page 1 of the two-page chain: two records of page 0 are
emitted, nothing of page 1, and the mid-page checkpoint carries
`records_processed = 2 + 0` and page 1's own cursor. -/
theorem C3_witness :
    (run (pauseCfg psW none none (pollCount psW 1 + 1 + 0)) initState).outcome =
      .pausedMidPage ∧
    (run (pauseCfg psW none none (pollCount psW 1 + 1 + 0)) initState).emitted =
      emitsFrom (pauseCfg psW none none (pollCount psW 1 + 1 + 0)) (psW.take 1) 0 ++
        qualList (pauseCfg psW none none (pollCount psW 1 + 1 + 0)) 1
          ((⟨[sampleDeal "c"]⟩ : Page).results.take 0) ∧
    (run (pauseCfg psW none none (pollCount psW 1 + 1 + 0)) initState).checkpoints.getLast? =
      some ⟨⟨.paused_mid_page,
        (emitsFrom (pauseCfg psW none none (pollCount psW 1 + 1 + 0)) (psW.take 1) 0).length +
          (qualList (pauseCfg psW none none (pollCount psW 1 + 1 + 0)) 1
            ((⟨[sampleDeal "c"]⟩ : Page).results.take 0)).length,
        cursorAt 1, 1, 100⟩, true⟩ :=
  C3_mid_page_pause psW none none 1 0 ⟨[sampleDeal "c"]⟩ (by decide) (by decide)
    (by decide) (by decide) (by decide)

/-- C4 witness: cancel requested at the boundary before page 1 of the
two-page chain, with the pause guard answering true at that same boundary
poll: the run is cancelled (not paused), page 1 is never fetched, and the
checkpoint carries the records of page 0 only. -/
theorem C4_witness :
    (run (cancelCfg psW none none 1 (fun n => decide (3 ≤ n))) initState).outcome =
      .cancelled ∧
    (run (cancelCfg psW none none 1 (fun n => decide (3 ≤ n))) initState).emitted =
      emitsFrom (cancelCfg psW none none 1 (fun n => decide (3 ≤ n))) (psW.take 1) 0 ∧
    (run (cancelCfg psW none none 1 (fun n => decide (3 ≤ n))) initState).fetched =
      (List.range' 0 1).map cursorAt ∧
    cursorAt 1 ∉ (run (cancelCfg psW none none 1 (fun n => decide (3 ≤ n)))
      initState).fetched ∧
    (run (cancelCfg psW none none 1 (fun n => decide (3 ≤ n)))
        initState).checkpoints.getLast? =
      some ⟨⟨.cancelled,
        (emitsFrom (cancelCfg psW none none 1 (fun n => decide (3 ≤ n)))
          (psW.take 1) 0).length,
        cursorAt 1, 1, 100⟩, true⟩ :=
  C4_cancel_before_page psW none none 1 (fun n => decide (3 ≤ n)) (by decide) (by decide)
    (by decide) (by decide)

/-- The (possibly absent, truthiness-normalised) value parses as a Python
int — i.e. `int(...)` would not raise on it. -/
def safeIntOpt (o : Option String) : Bool :=
  match o with
  | none => true
  | some v => (parseInt? v).isSome

/-- The (possibly absent, truthiness-normalised) value parses as a Python
float — i.e. `float(...)` would not raise on it. -/
def safeFloatOpt (o : Option String) : Bool :=
  match o with
  | none => true
  | some v => (parseFloat? v).isSome

lemma int_or_raise_ok (v : Option String) (h : safeIntOpt (truthy v) = true) :
    ∃ n, int_or_raise v = Except.ok n := by
  unfold int_or_raise
  rcases hm : truthy v with _ | s
  · exact ⟨0, rfl⟩
  · rw [hm] at h
    simp only [safeIntOpt] at h
    obtain ⟨n, hn⟩ := Option.isSome_iff_exists.mp h
    refine ⟨n, ?_⟩
    show (match parseInt? s with
      | some n => Except.ok n
      | none => Except.error ("invalid literal for int: " ++ s)) = Except.ok n
    rw [hn]

lemma float_or_raise_ok (v : Option String) (h : safeFloatOpt (truthy v) = true) :
    ∃ q, float_or_raise v = Except.ok q := by
  unfold float_or_raise
  rcases hm : truthy v with _ | s
  · exact ⟨none, rfl⟩
  · rw [hm] at h
    simp only [safeFloatOpt] at h
    obtain ⟨q, hq⟩ := Option.isSome_iff_exists.mp h
    refine ⟨some q, ?_⟩
    show (match parseFloat? s with
      | some q => Except.ok (some q)
      | none => Except.error ("could not convert string to float: " ++ s)) =
        Except.ok (some q)
    rw [hq]

/-- C5 (amended): the transformation never raises on unparseable `amount`,
date, or stage-probability values — those degrade to null and the record
is still transformed and emitted — provided the three fields parsed
*outside* any `try/except` (`num_associated_contacts`, forecast amount,
forecast probability) are absent or parseable; an unparseable truthy
value of one of those three raises (see the counterexample). -/
theorem C5_parse_failures_degrade (d : RawDeal) (scan : String) (tid : Option String)
    (pn : Nat)
    (h1 : safeIntOpt (truthy (getProp d.properties "num_associated_contacts")) = true)
    (h2 : safeFloatOpt (truthy (getProp d.properties "hs_forecast_amount")) = true)
    (h3 : safeFloatOpt (truthy (getProp d.properties "hs_forecast_probability")) = true) :
    ∃ td, transform_hubspot_deal d scan tid pn = .ok td ∧
      td.amount = safeFloat (getProp d.properties "amount") ∧
      td.deal_stage_probability =
        ((truthy (getProp d.properties "hs_deal_stage_probability")).bind parseFloat?).map
          (fun q => q / 100) ∧
      td.close_date = parse_date (getProp d.properties "closedate") ∧
      td.hubspot_created_at = parse_date (getProp d.properties "createdate") ∧
      td.hubspot_updated_at = parse_date (getProp d.properties "hs_lastmodifieddate") := by
  obtain ⟨n1, hn1⟩ := int_or_raise_ok (getProp d.properties "num_associated_contacts") h1
  obtain ⟨q2, hq2⟩ := float_or_raise_ok (getProp d.properties "hs_forecast_amount") h2
  obtain ⟨q3, hq3⟩ := float_or_raise_ok (getProp d.properties "hs_forecast_probability") h3
  unfold transform_hubspot_deal
  rw [hn1, hq2, hq3]
  exact ⟨_, rfl, rfl, rfl, rfl, rfl, rfl⟩

/-- C5 witness: a malformed `amount` (`"N/A"`) yields a transformed record
with `amount = null` rather than an exception. -/
theorem C5_witness :
    ∃ td, transform_hubspot_deal ⟨some "x", [("amount", "N/A")], false⟩ "s" none 1 =
        .ok td ∧
      td.amount = safeFloat (getProp (⟨some "x", [("amount", "N/A")], false⟩ :
        RawDeal).properties "amount") ∧
      td.deal_stage_probability =
        ((truthy (getProp (⟨some "x", [("amount", "N/A")], false⟩ :
          RawDeal).properties "hs_deal_stage_probability")).bind parseFloat?).map
            (fun q => q / 100) ∧
      td.close_date = parse_date (getProp (⟨some "x", [("amount", "N/A")], false⟩ :
        RawDeal).properties "closedate") ∧
      td.hubspot_created_at = parse_date (getProp (⟨some "x", [("amount", "N/A")], false⟩ :
        RawDeal).properties "createdate") ∧
      td.hubspot_updated_at = parse_date (getProp (⟨some "x", [("amount", "N/A")], false⟩ :
        RawDeal).properties "hs_lastmodifieddate") :=
  C5_parse_failures_degrade ⟨some "x", [("amount", "N/A")], false⟩ "s" none 1
    (by decide) (by decide) (by decide)

/-- C5 counterexample: an unparseable `num_associated_contacts` value
makes the transformation raise (`int("abc")` is outside any `try/except`),
so the record is not transformed — contradicting the claim that every
unparseable numeric field degrades to null without raising. -/
theorem C5_counterexample :
    transform_hubspot_deal ⟨some "b", [("num_associated_contacts", "abc")], false⟩
      "s" none 1 = .error "invalid literal for int: abc" := by
  rfl

/-- C6 (amended): the retry loop of `_make_request`.  A 429 response
sleeps exactly `Retry-After` seconds (1 if absent) and retries the same
request, but the retry *consumes one of the 3 attempts* (the `continue`
advances the `for attempt in range(3)` loop); any other request exception
— a network error or an HTTP status `>= 400` raised by
`raise_for_status` — is retried with exponential backoff `2 ** attempt`
plus sub-second jitter, up to 3 total attempts, after which the last
error propagates; and 3 consecutive 429 responses exhaust the budget and
fail with the max-retries error. -/
theorem C6_retry_policy (ra : Option Nat) (m : String) (j : Nat → ℚ) :
    makeRequest (fun n => if n = 0 then .response 429 ra else .response 200 none) j =
      (.success 200, [((ra.getD 1 : Nat) : ℚ)]) ∧
    makeRequest (fun _ => .exn m) j = (.failure m, [1 + j 0, 2 + j 1]) ∧
    makeRequest (fun _ => .response 500 none) j =
      (.failure "HTTP error 500", [1 + j 0, 2 + j 1]) ∧
    makeRequest (fun _ => .response 429 ra) j =
      (.failure "Max retries (3) exceeded",
        [((ra.getD 1 : Nat) : ℚ), ((ra.getD 1 : Nat) : ℚ), ((ra.getD 1 : Nat) : ℚ)]) := by
  refine ⟨?_, ?_, ?_, ?_⟩ <;> simp [makeRequest, makeRequestAux]
  decide

/-- C6 counterexample: three consecutive 429 responses (with
`Retry-After: 2`) make `_make_request` fail with the max-retries
exception after sleeping 2 seconds three times — a finite number of 429
responses alone does make the request fail, and each 429 retry counts
against the 3-attempt budget. -/
theorem C6_counterexample :
    makeRequest (fun _ => .response 429 (some 2)) (fun _ => 0) =
      (.failure "Max retries (3) exceeded", [2, 2, 2]) := by
  decide

/-- A fetch function that serves the chain `ps` but raises `e` when asked
for page `p`'s cursor (as `get_deals` does once the client's retry budget
is exhausted). -/
def failFetch (ps : List Page) (p : Nat) (e : String) (c : Option Nat) :
    Except String (ApiResponse Nat) :=
  if c = cursorAt p then .error e else chainFetch ps c

/-- Chain configuration whose fetch of page `p` fails fatally. -/
def failCfg (ps : List Page) (ds pl : Option (List String)) (p : Nat) (e : String) :
    EngineConfig Nat :=
  { chainCfg ps falseSeq falseSeq falseSeq ds pl with fetch := failFetch ps p e }

/-- C7: when the client's retry budget is exhausted by consecutive
request exceptions `_make_request` propagates the failure (first
conjunct); and when the fetch of page `p` raises, the engine emits an
`error` checkpoint whose cursor is exactly the cursor in use for the
failing fetch (so a resume retries the same page) and whose
`records_processed` is the cumulative total from before that page, and
then propagates the error instead of retrying. -/
theorem C7_fetch_failure (ps : List Page) (ds pl : Option (List String)) (p : Nat)
    (e m : String) (j : Nat → ℚ)
    (hplt : p < ps.length) (hp1000 : p < 1000)
    (hok : pagesOkFrom (failCfg ps ds pl p e) (ps.take p) 0 = true) :
    (makeRequest (fun _ => .exn m) j).1 = .failure m ∧
    (run (failCfg ps ds pl p e) initState).outcome = .errored e ∧
    (run (failCfg ps ds pl p e) initState).emitted =
      emitsFrom (failCfg ps ds pl p e) (ps.take p) 0 ∧
    (run (failCfg ps ds pl p e) initState).checkpoints.getLast? =
      some ⟨⟨.error, (emitsFrom (failCfg ps ds pl p e) (ps.take p) 0).length,
        cursorAt p, p, 100⟩, true⟩ ∧
    (run (failCfg ps ds pl p e) initState).fetched =
      (List.range' 0 p).map cursorAt ++ [cursorAt p] := by
  have htakelen : (ps.take p).length = p := by
    rw [List.length_take]
    omega
  obtain ⟨b2, pre, heq⟩ :=
    runLoop_advance (failCfg ps ds pl p e) ps (ps.take p) 0 1000 0 0 0 0
      (by rw [List.drop_zero, htakelen])
      (by rw [htakelen]; omega)
      (by rw [htakelen]; omega)
      (fun k hk => by
        rw [htakelen] at hk
        show failFetch ps p e (cursorAt (0 + k)) = chainFetch ps (cursorAt (0 + k))
        unfold failFetch
        rw [if_neg]
        intro hcon
        have := cursorAt_inj hcon
        omega)
      (fun k _ => rfl)
      (fun n _ => rfl)
      (fun k pg hk _ hlt2 d hd =>
        pagesOk_take (failCfg ps ds pl p e) ps p hok k pg hk
          (by rw [htakelen] at hlt2; omega) d hd)
  rw [htakelen, ← pollCount_eq ps p] at heq
  simp only [Nat.zero_add] at heq
  obtain ⟨f, hfe⟩ : ∃ f, 1000 - p = f + 1 := ⟨1000 - p - 1, by omega⟩
  rw [hfe] at heq
  have hfp : (failCfg ps ds pl p e).fetch (cursorAt p) = .error e := by
    show failFetch ps p e (cursorAt p) = .error e
    unfold failFetch
    rw [if_pos rfl]
  have herr := runLoop_fetchErr (failCfg ps ds pl p e) f (cursorAt p) p
    (emitsFrom (failCfg ps ds pl p e) (ps.take p) 0).length
    (pollCount ps p) p b2 e rfl rfl hfp
  rw [herr] at heq
  have hcp : (emitCp (failCfg ps ds pl p e) b2 ⟨.error,
      (emitsFrom (failCfg ps ds pl p e) (ps.take p) 0).length, cursorAt p, p, 100⟩).1 =
      [⟨⟨.error, (emitsFrom (failCfg ps ds pl p e) (ps.take p) 0).length,
        cursorAt p, p, 100⟩, true⟩] := rfl
  rw [hcp] at heq
  have hr : run (failCfg ps ds pl p e) initState =
      runLoop (failCfg ps ds pl p e) 1000 ⟨cursorAt 0, 0, 0, 0, 0, 0⟩ := rfl
  refine ⟨by simp [makeRequest, makeRequestAux], ?_, ?_, ?_, ?_⟩ <;> rw [hr, heq]
  · simp
  · exact List.getLast?_concat pre

/-- A deal whose transformation raises (`int("abc")`). -/
def badDeal : RawDeal := ⟨some "bad", [("num_associated_contacts", "abc")], false⟩

/-- A two-page chain whose second page contains a good record followed by
`badDeal`. -/
def psBad : List Page := [⟨[sampleDeal "a"]⟩, ⟨[sampleDeal "b", badDeal]⟩]

/-- C7 witness: the claim at a concrete two-page chain whose second fetch
fails fatally. -/
theorem C7_witness :
    (makeRequest (fun _ => .exn "boom") (fun _ => 0)).1 = .failure "boom" ∧
    (run (failCfg psW none none 1 "RemoteError") initState).outcome =
      .errored "RemoteError" ∧
    (run (failCfg psW none none 1 "RemoteError") initState).emitted =
      emitsFrom (failCfg psW none none 1 "RemoteError") (psW.take 1) 0 ∧
    (run (failCfg psW none none 1 "RemoteError") initState).checkpoints.getLast? =
      some ⟨⟨.error, (emitsFrom (failCfg psW none none 1 "RemoteError") (psW.take 1) 0).length,
        cursorAt 1, 1, 100⟩, true⟩ ∧
    (run (failCfg psW none none 1 "RemoteError") initState).fetched =
      (List.range' 0 1).map cursorAt ++ [cursorAt 1] :=
  C7_fetch_failure psW none none 1 "RemoteError" "boom" (fun _ => 0) (by decide)
    (by decide) (by decide)

/-- C10: any exception raised during per-record processing — here a
transformation failure on record `bad` of page `p`, after the qualifying
records before it were already yielded — lands in the loop's `except`
clause: the emitted `error` checkpoint counts only the records through
page `p-1` (the records already emitted from page `p` are not counted),
its cursor still names page `p`, and the exception is re-raised. -/
theorem C10_record_error (ps : List Page) (ds pl : Option (List String)) (p : Nat)
    (page : Page) (good : List RawDeal) (bad : RawDeal) (rest2 : List RawDeal) (e : String)
    (hpage : ps[p]? = some page) (hsplit : page.results = good ++ bad :: rest2)
    (hp1000 : p < 1000)
    (hokpre : pagesOkFrom (chainCfg ps falseSeq falseSeq falseSeq ds pl) (ps.take p) 0 = true)
    (hokgood : good.all
      (fun d => transformOk (chainCfg ps falseSeq falseSeq falseSeq ds pl) p d) = true)
    (hbad : transform_hubspot_deal bad "s" none (p + 1) = .error e) :
    (run (chainCfg ps falseSeq falseSeq falseSeq ds pl) initState).outcome = .errored e ∧
    (run (chainCfg ps falseSeq falseSeq falseSeq ds pl) initState).emitted =
      emitsFrom (chainCfg ps falseSeq falseSeq falseSeq ds pl) (ps.take p) 0 ++
        qualList (chainCfg ps falseSeq falseSeq falseSeq ds pl) p good ∧
    (run (chainCfg ps falseSeq falseSeq falseSeq ds pl) initState).checkpoints.getLast? =
      some ⟨⟨.error,
        (emitsFrom (chainCfg ps falseSeq falseSeq falseSeq ds pl) (ps.take p) 0).length,
        cursorAt p, p, 100⟩, true⟩ := by
  have hplt : p < ps.length := lt_length_of_getElem? hpage
  have htakelen : (ps.take p).length = p := by
    rw [List.length_take]
    omega
  obtain ⟨b2, pre, heq⟩ :=
    runLoop_advance (chainCfg ps falseSeq falseSeq falseSeq ds pl) ps (ps.take p) 0 1000
      0 0 0 0
      (by rw [List.drop_zero, htakelen])
      (by rw [htakelen]; omega)
      (by rw [htakelen]; omega)
      (fun k _ => rfl)
      (fun k _ => rfl)
      (fun n _ => rfl)
      (fun k pg hk _ hlt2 d hd =>
        pagesOk_take (chainCfg ps falseSeq falseSeq falseSeq ds pl) ps p hokpre k pg hk
          (by rw [htakelen] at hlt2; omega) d hd)
  rw [htakelen, ← pollCount_eq ps p] at heq
  simp only [Nat.zero_add] at heq
  obtain ⟨f, hfe⟩ : ∃ f, 1000 - p = f + 1 := ⟨1000 - p - 1, by omega⟩
  rw [hfe] at heq
  have hfetchp : (chainCfg ps falseSeq falseSeq falseSeq ds pl).fetch (cursorAt p) =
      .ok ⟨page.results, if p + 1 < ps.length then some (p + 1) else none⟩ :=
    chainFetch_at hpage
  have hokgood2 : ∀ d ∈ good,
      transformOk (chainCfg ps falseSeq falseSeq falseSeq ds pl) p d = true := by
    rw [List.all_eq_true] at hokgood
    exact hokgood
  have hpr : processRecords (chainCfg ps falseSeq falseSeq falseSeq ds pl) (cursorAt p) p
      (emitsFrom (chainCfg ps falseSeq falseSeq falseSeq ds pl) (ps.take p) 0).length
      page.results 0 (pollCount ps p + 1) b2 =
      .errored (qualList (chainCfg ps falseSeq falseSeq falseSeq ds pl) p good) e := by
    rw [hsplit]
    exact processRecords_erroredAt (chainCfg ps falseSeq falseSeq falseSeq ds pl)
      (cursorAt p) p
      (emitsFrom (chainCfg ps falseSeq falseSeq falseSeq ds pl) (ps.take p) 0).length
      bad e good rest2 0 (pollCount ps p + 1) b2 (fun k _ => rfl) hokgood2 hbad
  have herr := runLoop_recErr (chainCfg ps falseSeq falseSeq falseSeq ds pl) f
    (cursorAt p) p
    (emitsFrom (chainCfg ps falseSeq falseSeq falseSeq ds pl) (ps.take p) 0).length
    (pollCount ps p) p b2
    ⟨page.results, if p + 1 < ps.length then some (p + 1) else none⟩
    (qualList (chainCfg ps falseSeq falseSeq falseSeq ds pl) p good) e
    rfl rfl hfetchp hpr
  rw [herr] at heq
  have hcp : (emitCp (chainCfg ps falseSeq falseSeq falseSeq ds pl) b2 ⟨.error,
      (emitsFrom (chainCfg ps falseSeq falseSeq falseSeq ds pl) (ps.take p) 0).length,
      cursorAt p, p, 100⟩).1 =
      [⟨⟨.error,
        (emitsFrom (chainCfg ps falseSeq falseSeq falseSeq ds pl) (ps.take p) 0).length,
        cursorAt p, p, 100⟩, true⟩] := rfl
  rw [hcp] at heq
  have hr : run (chainCfg ps falseSeq falseSeq falseSeq ds pl) initState =
      runLoop (chainCfg ps falseSeq falseSeq falseSeq ds pl) 1000
        ⟨cursorAt 0, 0, 0, 0, 0, 0⟩ := rfl
  rw [hr, heq]
  exact ⟨rfl, rfl, List.getLast?_concat pre⟩

/-- C10 witness: a transformation failure on the second record of page 1,
after its first record was emitted: the error checkpoint counts only
page 0's record, names page 1's cursor, and the error propagates. -/
theorem C10_witness :
    (run (chainCfg psBad falseSeq falseSeq falseSeq none none) initState).outcome =
      .errored "invalid literal for int: abc" ∧
    (run (chainCfg psBad falseSeq falseSeq falseSeq none none) initState).emitted =
      emitsFrom (chainCfg psBad falseSeq falseSeq falseSeq none none) (psBad.take 1) 0 ++
        qualList (chainCfg psBad falseSeq falseSeq falseSeq none none) 1 [sampleDeal "b"] ∧
    (run (chainCfg psBad falseSeq falseSeq falseSeq none none) initState).checkpoints.getLast? =
      some ⟨⟨.error,
        (emitsFrom (chainCfg psBad falseSeq falseSeq falseSeq none none) (psBad.take 1) 0).length,
        cursorAt 1, 1, 100⟩, true⟩ :=
  C10_record_error psBad none none 1 ⟨[sampleDeal "b", badDeal]⟩ [sampleDeal "b"] badDeal
    [] "invalid literal for int: abc" (by decide) (by decide) (by decide) (by decide)
    (by decide) (by rfl)

end HubSpotETL
